import Mathlib

/-!
Verification of the UK_Socio_Economic_Modelling mortality-harmonization
pipeline (`src/data_sources/mortality_stats/`), shallowly embedded in Lean.

The embedded Python code:
* `development_code/build_harmonized_categories.py` — the keyword
  classifier `classify_by_keywords` and its `HARMONIZED_CATEGORIES` table;
* `development_code/rebuild_harmonized_from_archive.py` — the
  harmonization driver `main`, its `normalize_code`, and
  `get_icd_version_for_year` with `DEFAULT_ICD_YEAR_RANGES`;
* `development_code/build_code_descriptions.py` — the code/description
  table builder `build_code_description_mapping` and its `main`;
* `build_comprehensive_mortality_1901_2025.py` — the record filter of
  `standardize_mortality_data` and the summary sort of
  `aggregate_to_summary`.

Pandas dataframes are modelled as Lists of structures; a NaN-able column
is an `Option`.  Python semantics that the scripts rely on (truthiness,
`str.strip`, substring `in`, stable `list.sort`, `str.zfill`,
dict-insertion iteration order, left-merge row order) are modelled by
small definitions kept next to their first use, each with a comment
stating the Python behaviour it captures.
-/

namespace UKMort

/-! ### Python string primitives -/

/-- The whitespace characters stripped by Python `str.strip()` (ASCII part:
space, tab, newline, carriage return, vertical tab, form feed; the source
data is ASCII). -/
def pyIsSpace (c : Char) : Bool :=
  c = ' ' || c = '\t' || c = '\n' || c = '\r' || c = '\x0b' || c = '\x0c'

/-- Python `s.strip()`: remove leading and trailing whitespace. -/
def pyStrip (s : String) : String :=
  String.mk (((s.toList.dropWhile pyIsSpace).reverse.dropWhile pyIsSpace).reverse)

/-- `needle ⊑ hay` as lists: Python's substring test `needle in hay`
(contiguous subsequence). -/
def listInfixOf (needle : List Char) : List Char → Bool
  | [] => needle.isEmpty
  | c :: rest => needle.isPrefixOf (c :: rest) || listInfixOf needle rest

/-- Python `needle in hay` on strings. -/
def pyIn (needle hay : String) : Bool :=
  listInfixOf needle.toList hay.toList

/-- ASCII lower-casing of one character (the data and keywords are ASCII;
Python `str.lower` is Unicode-aware but agrees on ASCII). -/
def pyLowerChar (c : Char) : Char :=
  if 'A' ≤ c && c ≤ 'Z' then Char.ofNat (c.toNat + 32) else c

/-- Python `s.lower()` (ASCII fragment). -/
def pyLower (s : String) : String :=
  String.mk (s.toList.map pyLowerChar)

/-- Python `s.startswith(p)` (single-prefix form). -/
def pyStartsWith (s p : String) : Bool :=
  p.toList.isPrefixOf s.toList

/-! ### Python stable sort (`list.sort(key=…, reverse=True)`)

Python's `list.sort` is stable; with `reverse=True` it orders by
descending key, equal-key elements keeping their original order.  That
semantics determines the result uniquely, and is realised by repeatedly
extracting the first element attaining the maximal key. -/

/-- The first element of `l` whose key is maximal (earlier elements win
ties). -/
def pickFirstMax {α : Type} (key : α → Nat) : List α → Option α
  | [] => none
  | a :: l =>
    match pickFirstMax key l with
    | none => some a
    | some b => if key b > key a then some b else some a

/-- Stable descending sort by `key`, as selection of the first maximum;
`fuel` bounds the recursion by the list length. -/
def pyStableSortDescAux {α : Type} [DecidableEq α] (key : α → Nat) :
    Nat → List α → List α
  | 0, _ => []
  | _ + 1, [] => []
  | n + 1, l =>
    match pickFirstMax key l with
    | none => []
    | some m => m :: pyStableSortDescAux key n (l.erase m)

/-- Python `l.sort(key=…, reverse=True)`. -/
def pyStableSortDesc {α : Type} [DecidableEq α] (key : α → Nat) (l : List α) :
    List α :=
  pyStableSortDescAux key l.length l

/-! ### The harmonized category table
(`build_harmonized_categories.py`, `HARMONIZED_CATEGORIES`).
A Python dict iterates in insertion order, so the table is a list in
declaration order. -/

structure HCategory where
  id : String
  name : String
  keywords : List String
deriving DecidableEq, Repr

def HARMONIZED_CATEGORIES : List HCategory := [
  ⟨"infectious_diseases", "Infectious and Parasitic Diseases",
    ["fever", "pox", "plague", "cholera", "typhus", "typhoid", "malaria",
     "diphtheria", "whooping", "scarlet", "measles", "influenza",
     "tuberculosis", "septic", "infection", "tetanus", "anthrax", "rabies",
     "syphilis", "gonorrhoea", "dysentery", "enteritis", "diarrhoea",
     "polio", "encephalitis", "meningitis", "leprosy", "mumps", "rubella",
     "pertussis", "streptococcal", "staphylococcal", "pneumococcal",
     "viral", "bacterial", "parasit", "helminth", "fungal",
     "infectious disease", "epidemic", "endemic", "varicella", "glanders",
     "antinomycosis", "other mycosis", "trematodes",
     "disease due to nematodes", "disease due to trematodes",
     "disease due to coccidia"]⟩,
  ⟨"neoplasms", "Neoplasms (Cancers and Tumors)",
    ["cancer", "carcinoma", "sarcoma", "tumor", "tumour", "neoplasm",
     "malignant", "benign", "lymphoma", "leukaemia", "leukemia", "melanoma",
     "adenoma", "adenocarcinoma", "glioma", "metasta"]⟩,
  ⟨"blood_immune", "Blood and Immune System Disorders",
    ["anaemia", "anemia", "haemophilia", "purpura", "thrombocytopeni",
     "agranulocytosis", "immunodeficiency", "immune disorder", "thymus",
     "diseases of the thymus", "diseases of the spleen",
     "disseminated sclerosis", "multiple sclerosis", "pemphigus"]⟩,
  ⟨"endocrine_metabolic", "Endocrine, Nutritional and Metabolic Diseases",
    ["diabetes", "thyroid", "goitre", "gout", "rickets", "scurvy",
     "beriberi", "pellagra", "marasmus", "kwashiorkor", "malnutrition",
     "obesity", "vitamin deficiency", "metabolic", "addison", "cushing",
     "acromegaly", "pituitary"]⟩,
  ⟨"mental_behavioral", "Mental and Behavioral Disorders",
    ["mental", "insanity", "mania", "melancholia", "psychosis", "neurosis",
     "dementia", "delirium", "schizophrenia", "depression", "anxiety",
     "intellectual disability", "idiocy,imbecility"]⟩,
  ⟨"nervous_system", "Diseases of the Nervous System",
    ["nervous", "brain", "cerebral", "apoplexy", "paralysis", "hemiplegia",
     "epilepsy", "convulsion", "meningitis", "encephalitis", "parkinson",
     "multiple sclerosis", "neuralgia", "neuritis", "migraine", "headache",
     "beri-beri", "tetany", "tabes dorsalis", "locomotor ataxia",
     "chorea"]⟩,
  ⟨"eye_ear", "Diseases of Eye and Ear",
    ["eye", "vision", "blind", "cataract", "glaucoma", "ear", "deaf",
     "otitis", "mastoid sinus", "mastoiditis"]⟩,
  ⟨"circulatory", "Diseases of the Circulatory System",
    ["heart", "cardiac", "myocardi", "endocardi", "pericardi", "angina",
     "coronary", "artery", "arteriosclerosis", "atherosclerosis",
     "hypertension", "stroke", "cerebrovascular", "haemorrhage",
     "hemorrhage", "embolism", "thrombosis", "aneurysm", "varicose",
     "phlebitis", "gangrene", "vascular", "aortic valve disease",
     "mitral valve disease", "aortic and mitral valve disease",
     "other diseases of the arteries",
     "other diseases of the circulatory system"]⟩,
  ⟨"respiratory", "Diseases of the Respiratory System",
    ["lung", "pulmonary", "bronch", "pneumonia", "asthma", "emphysema",
     "larynx", "laryngitis", "croup", "pharynx", "tonsil", "respiratory",
     "pleurisy", "pleural", "pneumothorax", "silicosis", "asbestosis",
     "diseases of the nose", "diseases of the accessory nasal sinuses",
     "laryngismus stridulus", "empyema", "atelectasis"]⟩,
  ⟨"digestive", "Diseases of the Digestive System",
    ["stomach", "gastric", "gastritis", "ulcer", "intestin", "bowel",
     "colon", "rectum", "anus", "appendicitis", "peritonitis", "hernia",
     "liver", "hepat", "cirrhosis", "gallbladder", "cholecyst", "pancrea",
     "oesophag", "esophag", "digestive", "alimentary", "spirochaetosis",
     "colitis", "ankylostomiasis", "biliary calculi"]⟩,
  ⟨"skin", "Diseases of the Skin",
    ["skin", "dermat", "eczema", "psoriasis", "ulcer", "abscess",
     "carbuncle", "cellulitis", "gangrene", "erysipelas", "myxoedema"]⟩,
  ⟨"musculoskeletal",
    "Diseases of Musculoskeletal System and Connective Tissue",
    ["arthritis", "rheumat", "osteo", "bone", "joint", "muscle", "muscular",
     "spine", "spinal", "scoliosis", "dorsopathy"]⟩,
  ⟨"genitourinary", "Diseases of the Genitourinary System",
    ["kidney", "renal", "nephri", "urinary", "bladder", "cystitis",
     "urethr", "prostate", "uterus", "ovary", "vagina", "menstrual",
     "genital", "soft chancre", "chancroid", "chyluria", "salpingitis"]⟩,
  ⟨"pregnancy_childbirth", "Pregnancy, Childbirth and Puerperium",
    ["pregnancy", "pregnant", "childbirth", "labour", "labor", "delivery",
     "puerperal", "placenta", "abortion", "miscarriage", "ectopic",
     "obstetric", "icterus neonatorum", "diseases of the umbilicus"]⟩,
  ⟨"perinatal", "Conditions Originating in Perinatal Period",
    ["newborn", "neonatal", "birth", "prematurity", "foetal", "fetal",
     "perinatal", "congenital", "cretinism", "congenital hypothyroidism"]⟩,
  ⟨"congenital",
    "Congenital Malformations and Chromosomal Abnormalities",
    ["congenital", "malformation", "deformity", "chromosomal",
     "down syndrome", "spina bifida", "cleft"]⟩,
  ⟨"injury_poisoning", "Injury, Poisoning and External Causes",
    ["injury", "trauma", "wound", "fracture", "burn", "poison", "toxic",
     "drown", "suffocation", "fall", "crush", "motor vehicle", "railway",
     "fire", "vaccinia*"]⟩,
  ⟨"Suicide", "Suicide and Self-Inflicted Injury",
    ["suicide"]⟩,
  ⟨"Accident", "Accidental Death",
    ["accident", "conflagration", "lightening", "electricity"]⟩,
  ⟨"Homicide", "Homicide and Assault",
    ["homicide", "violence", "assault", "weapon"]⟩,
  ⟨"Legal Drugs", "Legal Drug-Related Deaths",
    ["tobacco", "alcohol", "alcohol dependence syndrome", "alcoholism",
     "alcoholic psychoses"]⟩,
  ⟨"Drugs", "Drug-Related Deaths",
    ["overdose", "drug dependence", "opium", "drug psychoses",
     "nonedependent abuse of drugs"]⟩,
  ⟨"War", "War and War-Related Deaths",
    ["battle", "war ", "executions of civilians by belligerent armies"]⟩,
  ⟨"ill_defined", "Symptoms, Signs and Ill-Defined Conditions",
    ["symptom", "sign", "ill-defined", "unknown", "unspecified", "senility",
     "old age", "debility", "sudden death", "found dead"]⟩,
  ⟨"other", "Other and Unclassified", []⟩]

/-- `classify_by_keywords(description, code=None)` from
`build_harmonized_categories.py`.  A `None` description is `Option.none`;
Python's `not description` is additionally true for the empty string, so
both fall into the first return.  `match_count` is the number of the
category's keywords occurring as substrings of the lower-cased
description, and the `matches` list is sorted descending by count with
Python's stable sort before taking element 0.  (A sorted list is empty
exactly when `matches` is, so the `[]` branch is the source's
`if matches:` false branch.)  The `code` argument is unused, as in the
source. -/
def classify_by_keywords (description : Option String)
    (code : Option String := none) : String × String × String :=
  match description with
  | none => ("ill_defined", "Symptoms, Signs and Ill-Defined Conditions", "unknown")
  | some d =>
    if d = "" then
      ("ill_defined", "Symptoms, Signs and Ill-Defined Conditions", "unknown")
    else
      let description_lower := pyLower d
      -- `matches` is a reserved word in Lean, hence `matchesL`
      let matchesL := HARMONIZED_CATEGORIES.filterMap (fun cat =>
        if cat.id = "other" then none
        else
          let match_count :=
            cat.keywords.countP (fun kw => pyIn (pyLower kw) description_lower)
          if match_count > 0 then some (cat.id, cat.name, match_count)
          else none)
      match pyStableSortDesc (fun m => m.2.2) matchesL with
      | best :: _ =>
        (best.1, best.2.1, if best.2.2 ≥ 2 then "high" else "medium")
      | [] => ("other", "Other and Unclassified", "low")

/-! ### Head of the stable descending sort -/

/-- Largest key value in a list (0 when empty). -/
def maxKeyVal {α : Type} (key : α → Nat) (l : List α) : Nat :=
  l.foldr (fun a m => max (key a) m) 0

theorem pickFirstMax_ne_none {α : Type} (key : α → Nat) (a : α) (l : List α) :
    pickFirstMax key (a :: l) ≠ none := by
  cases h : pickFirstMax key l with
  | none => simp [pickFirstMax, h]
  | some b =>
    simp only [pickFirstMax, h]
    split <;> simp

theorem maxKeyVal_cons {α : Type} (key : α → Nat) (a : α) (t : List α) :
    maxKeyVal key (a :: t) = max (key a) (maxKeyVal key t) := rfl

theorem pickFirstMax_eq_find? {α : Type} (key : α → Nat) :
    ∀ l : List α,
      pickFirstMax key l = l.find? (fun a => key a == maxKeyVal key l)
  | [] => rfl
  | a :: t => by
    have IH := pickFirstMax_eq_find? key t
    cases h : pickFirstMax key t with
    | none =>
      have ht : t = [] := by
        cases t with
        | nil => rfl
        | cons b t' => exact absurd h (pickFirstMax_ne_none key b t')
      subst ht
      simp [pickFirstMax, maxKeyVal, List.find?]
    | some b =>
      rw [h] at IH
      have hb : key b = maxKeyVal key t := by
        have h2 := List.find?_some IH.symm
        simpa using h2
      simp only [pickFirstMax, h]
      rw [maxKeyVal_cons]
      by_cases hgt : key a < key b
      · have hmax : max (key a) (maxKeyVal key t) = maxKeyVal key t :=
          Nat.max_eq_right (by omega)
        rw [hmax, if_pos hgt]
        rw [List.find?_cons_of_neg]
        · exact IH
        · simp only [beq_iff_eq]
          omega
      · have hmax : max (key a) (maxKeyVal key t) = key a :=
          Nat.max_eq_left (by omega)
        rw [hmax, if_neg hgt]
        rw [List.find?_cons_of_pos]
        simp

theorem head?_pyStableSortDesc {α : Type} [DecidableEq α] (key : α → Nat)
    (l : List α) :
    (pyStableSortDesc key l).head? = pickFirstMax key l := by
  cases l with
  | nil => rfl
  | cons a t =>
    simp only [pyStableSortDesc, List.length_cons, pyStableSortDescAux]
    cases h : pickFirstMax key (a :: t) with
    | none => exact absurd h (pickFirstMax_ne_none key a t)
    | some m => simp

/-- Modelled from the spec (§4.2), for refinement comparison with
`classify_by_keywords`: lower-case the description; for every category
except the catch-all count keyword substring occurrences; exclude
zero-match categories; among the rest pick the one with the highest
count, first-declared winning ties; confidence "high" iff the winning
count is at least 2, else "medium"; when nothing matches, the catch-all
with confidence "low". -/
def specKeywordClassify (d : String) : String × String × String :=
  let dl := pyLower d
  let scored := HARMONIZED_CATEGORIES.filterMap (fun cat =>
    if cat.id = "other" then none
    else
      let n := cat.keywords.countP (fun kw => pyIn (pyLower kw) dl)
      if n = 0 then none else some (cat.id, cat.name, n))
  match scored.find?
      (fun m => m.2.2 == maxKeyVal (fun m : String × String × Nat => m.2.2) scored) with
  | some best => (best.1, best.2.1, if 2 ≤ best.2.2 then "high" else "medium")
  | none => ("other", "Other and Unclassified", "low")

/-- C1 (amended): for every non-null, non-empty description, the source
classifier agrees with the spec's algorithm: highest keyword-match count
wins, ties to the first-declared category, confidence "high" iff the
winning count is ≥ 2 else "medium", catch-all "other" with "low" when no
keyword matches. -/
theorem C1_keyword_classifier (d : String) (hd : d ≠ "") :
    classify_by_keywords (some d) = specKeywordClassify d := by
  have hfil :
      HARMONIZED_CATEGORIES.filterMap (fun cat =>
        if cat.id = "other" then none
        else
          let n := cat.keywords.countP (fun kw => pyIn (pyLower kw) (pyLower d))
          if n > 0 then some (cat.id, cat.name, n) else none) =
      HARMONIZED_CATEGORIES.filterMap (fun cat =>
        if cat.id = "other" then none
        else
          let n := cat.keywords.countP (fun kw => pyIn (pyLower kw) (pyLower d))
          if n = 0 then none else some (cat.id, cat.name, n)) := by
    have hfun : (fun cat : HCategory =>
        if cat.id = "other" then none
        else
          let n := cat.keywords.countP (fun kw => pyIn (pyLower kw) (pyLower d))
          if n > 0 then some (cat.id, cat.name, n) else none) =
        (fun cat : HCategory =>
        if cat.id = "other" then none
        else
          let n := cat.keywords.countP (fun kw => pyIn (pyLower kw) (pyLower d))
          if n = 0 then none else some (cat.id, cat.name, n)) := by
      funext cat
      by_cases h0 : cat.id = "other"
      · simp [h0]
      · simp only [if_neg h0]
        rcases Nat.eq_zero_or_pos
            (cat.keywords.countP (fun kw => pyIn (pyLower kw) (pyLower d))) with h | h
        · simp [h]
        · simp [h, Nat.pos_iff_ne_zero.mp h]
    rw [hfun]
  simp only [classify_by_keywords, if_neg hd, specKeywordClassify]
  rw [hfil]
  set scored := HARMONIZED_CATEGORIES.filterMap (fun cat =>
    if cat.id = "other" then none
    else
      let n := cat.keywords.countP (fun kw => pyIn (pyLower kw) (pyLower d))
      if n = 0 then none else some (cat.id, cat.name, n)) with hscored
  have hhead := head?_pyStableSortDesc (fun m : String × String × Nat => m.2.2) scored
  rw [pickFirstMax_eq_find?] at hhead
  cases hs : pyStableSortDesc (fun m : String × String × Nat => m.2.2) scored with
  | nil =>
    rw [hs] at hhead
    simp only [List.head?] at hhead
    rw [← hhead]
  | cons best rest =>
    rw [hs] at hhead
    simp only [List.head?] at hhead
    rw [← hhead]

/-- C1 (counterexample): the empty string is a non-null description for
which no category has any keyword match, yet the classifier does not
return the catch-all ("other", …, "low") as the claim requires — it
returns ("ill_defined", …, "unknown") through Python's falsiness check. -/
theorem C1_counterexample :
    (∀ cat ∈ HARMONIZED_CATEGORIES,
      cat.keywords.countP (fun kw => pyIn (pyLower kw) (pyLower "")) = 0)
    ∧ classify_by_keywords (some "") =
        ("ill_defined", "Symptoms, Signs and Ill-Defined Conditions", "unknown")
    ∧ classify_by_keywords (some "") ≠
        ("other", "Other and Unclassified", "low") := by decide

/-- C1 (witness): the amended equivalence instantiated at the spec's own
scenario description. -/
theorem C1_keyword_classifier_witness :
    classify_by_keywords (some "small pox - vaccinated") =
      specKeywordClassify "small pox - vaccinated" :=
  C1_keyword_classifier "small pox - vaccinated" (by decide)

/-- C5 (amended): a null description never throws and is classified as
("ill_defined", "Symptoms, Signs and Ill-Defined Conditions") with
confidence "unknown" (the classifier is a total function). -/
theorem C5_null_description :
    classify_by_keywords none =
      ("ill_defined", "Symptoms, Signs and Ill-Defined Conditions", "unknown") := by
  decide

/-- C5 (counterexample): on a null description the classifier's
confidence is "unknown", not "low" as the claim states. -/
theorem C5_counterexample :
    (classify_by_keywords none).2.2 = "unknown"
    ∧ (classify_by_keywords none).2.2 ≠ "low" := by decide

/-! ### Python numeric strings: `str(int)`, `zfill`, `float()`
(needed by `normalize_code` in `rebuild_harmonized_from_archive.py`). -/

/-- The decimal digit character for `n < 10` (defence value '9' above). -/
def digitChar (n : Nat) : Char :=
  match n with
  | 0 => '0' | 1 => '1' | 2 => '2' | 3 => '3' | 4 => '4'
  | 5 => '5' | 6 => '6' | 7 => '7' | 8 => '8' | _ => '9'

/-- Decimal digits of `n`, most significant first; `fuel` bounds the
recursion. -/
def natDigitsAux (fuel : Nat) (n : Nat) : List Char :=
  match fuel with
  | 0 => []
  | fuel' + 1 =>
    if n < 10 then [digitChar n]
    else natDigitsAux fuel' (n / 10) ++ [digitChar (n % 10)]

/-- Decimal digits of `n` (e.g. `natDigits 120 = ['1','2','0']`). -/
def natDigits (n : Nat) : List Char := natDigitsAux (n + 1) n

/-- Python `str(i)` for an int: optional minus sign, then decimal digits
with no leading zeros. -/
def intToStr (i : Int) : String :=
  if i < 0 then String.mk ('-' :: natDigits i.natAbs)
  else String.mk (natDigits i.toNat)

/-- Python `s.zfill(width)`: left-pad with '0' to `width`, keeping a
leading sign in front of the padding. -/
def pyZfill (s : String) (width : Nat) : String :=
  let cs := s.toList
  if width ≤ cs.length then s
  else
    match cs with
    | c :: rest =>
      if c = '-' ∨ c = '+' then
        String.mk (c :: (List.replicate (width - cs.length) '0' ++ rest))
      else String.mk (List.replicate (width - cs.length) '0' ++ cs)
    | [] => String.mk (List.replicate width '0')

/-- Value of a digit string (most significant first). -/
def digitsToNat (ds : List Char) : Nat :=
  ds.foldl (fun a c => 10 * a + (c.toNat - 48)) 0

/-- The exact value of a finite decimal literal: `m * 10 ^ e`.  Kept
unnormalized so that every operation is plain `Int`/`Nat` arithmetic. -/
structure DecFloat where
  m : Int
  e : Int
deriving DecidableEq, Repr

/-- Python `float.is_integer()` on the exact decimal value. -/
def pyIsInteger (d : DecFloat) : Bool :=
  if 0 ≤ d.e then true else d.m % ((10 : Int) ^ (-d.e).toNat) == 0

/-- Python `int(f)`; exact whenever `pyIsInteger` holds (the only use in
`normalize_code`). -/
def pyFloatInt (d : DecFloat) : Int :=
  if 0 ≤ d.e then d.m * (10 : Int) ^ d.e.toNat
  else d.m / ((10 : Int) ^ (-d.e).toNat)

/-- Python `float(s)` on an (already stripped) string, returning the exact
decimal value: optional sign, digits with optional fraction part and
optional exponent; the whole string must be consumed and the mantissa
must contain at least one digit.  The value of `[sign] ip "." fp "e" x`
is `±(ip·fp) * 10 ^ (x - |fp|)`.  Documented modelling gaps, each landing
in the same branch of `normalize_code` as the Python original:
"inf"/"nan" literals parse in Python to non-finite floats whose
`is_integer()` is false and are modelled as a parse failure (both make
`normalize_code` return the stripped string unchanged); PEP-515
digit-group underscores are not modelled; and IEEE-754 rounding is not
modelled — we keep the exact decimal value, which can disagree with
`float.is_integer()` only on mantissas of ≥ 16 significant digits, which
do not occur as cause codes. -/
def pyParseFloat (s : String) : Option DecFloat :=
  let cs := s.toList
  let sign : Int := if cs.head? = some '-' then -1 else 1
  let cs1 :=
    if cs.head? = some '-' ∨ cs.head? = some '+' then cs.tail else cs
  let ip := cs1.takeWhile Char.isDigit
  let cs2 := cs1.dropWhile Char.isDigit
  let fp :=
    if cs2.head? = some '.' then cs2.tail.takeWhile Char.isDigit else []
  let cs3 :=
    if cs2.head? = some '.' then cs2.tail.dropWhile Char.isDigit else cs2
  if ip = [] ∧ fp = [] then none
  else
    let m : Int := sign * (digitsToNat (ip ++ fp) : Int)
    if cs3 = [] then some ⟨m, -(fp.length : Int)⟩
    else if cs3.head? = some 'e' ∨ cs3.head? = some 'E' then
      let r := cs3.tail
      let esign : Int := if r.head? = some '-' then -1 else 1
      let r2 := if r.head? = some '-' ∨ r.head? = some '+' then r.tail else r
      let ed := r2.takeWhile Char.isDigit
      if ed = [] ∨ r2.dropWhile Char.isDigit ≠ [] then none
      else some ⟨m, esign * (digitsToNat ed : Int) - (fp.length : Int)⟩
    else none

/-- `normalize_code(val, version)` from `rebuild_harmonized_from_archive.py`
(`main`, lines 109–136).  `str(val).strip()` is modelled by `pyStrip` on a
string input; `version.startswith(tuple)` is an `any` over the prefixes —
note that "ICD-10 (2001-9999)" starts with "ICD-1" and therefore takes
the first branch, exactly as in Python; `float(s)`, `f.is_integer()` and
`int(f)` are `pyParseFloat`, `pyIsInteger` and `pyFloatInt`. -/
def normalize_code (val : String) (version : String) : String :=
  let s := pyStrip val
  if ["ICD-1", "ICD-2", "ICD-3", "ICD-4", "ICD-5"].any
      (fun p => pyStartsWith version p) then
    match pyParseFloat s with
    | some f => if pyIsInteger f then intToStr (pyFloatInt f) ++ ".0" else s
    | none => s
  else if ["ICD-6", "ICD-7", "ICD-8", "ICD-9"].any
      (fun p => pyStartsWith version p) then
    match pyParseFloat s with
    | some f =>
      if pyIsInteger f then
        if pyFloatInt f < 10000 then pyZfill (intToStr (pyFloatInt f)) 4
        else intToStr (pyFloatInt f)
      else s
    | none => s
  else s

/-! ### List and character helper lemmas -/

theorem takeWhile_all {α : Type} {p : α → Bool} :
    ∀ {l : List α}, (∀ c ∈ l, p c = true) → l.takeWhile p = l
  | [], _ => rfl
  | a :: t, h => by
    have ha := h a (List.mem_cons_self a t)
    simp only [List.takeWhile_cons, ha]
    exact congrArg (a :: ·) (takeWhile_all fun c hc => h c (List.mem_cons_of_mem a hc))

theorem dropWhile_all {α : Type} {p : α → Bool} :
    ∀ {l : List α}, (∀ c ∈ l, p c = true) → l.dropWhile p = []
  | [], _ => rfl
  | a :: t, h => by
    have ha := h a (List.mem_cons_self a t)
    simp only [List.dropWhile_cons, ha]
    exact dropWhile_all fun c hc => h c (List.mem_cons_of_mem a hc)

theorem takeWhile_append_stop {α : Type} {p : α → Bool} {c : α} {r : List α} :
    ∀ {l : List α}, (∀ x ∈ l, p x = true) → p c = false →
      (l ++ c :: r).takeWhile p = l
  | [], _, hc => by simp [List.takeWhile_cons, hc]
  | a :: t, h, hc => by
    have ha := h a (List.mem_cons_self a t)
    simp only [List.cons_append, List.takeWhile_cons, ha]
    exact congrArg (a :: ·)
      (takeWhile_append_stop (fun x hx => h x (List.mem_cons_of_mem a hx)) hc)

theorem dropWhile_append_stop {α : Type} {p : α → Bool} {c : α} {r : List α} :
    ∀ {l : List α}, (∀ x ∈ l, p x = true) → p c = false →
      (l ++ c :: r).dropWhile p = c :: r
  | [], _, hc => by simp [List.dropWhile_cons, hc]
  | a :: t, h, hc => by
    have ha := h a (List.mem_cons_self a t)
    simp only [List.cons_append, List.dropWhile_cons, ha]
    exact dropWhile_append_stop (fun x hx => h x (List.mem_cons_of_mem a hx)) hc

theorem dropWhile_eq_self_of_all {α : Type} {p : α → Bool} {l : List α}
    (h : ∀ c ∈ l, p c = false) : l.dropWhile p = l := by
  cases l with
  | nil => rfl
  | cons a t => simp [List.dropWhile_cons, h a (List.mem_cons_self a t)]

theorem head?_dropWhile {α : Type} {p : α → Bool} :
    ∀ {l : List α} {c : α}, (l.dropWhile p).head? = some c → p c = false
  | [], c, h => by simp at h
  | a :: t, c, h => by
    by_cases ha : p a
    · rw [List.dropWhile_cons, if_pos ha] at h
      exact head?_dropWhile h
    · rw [List.dropWhile_cons, if_neg ha] at h
      simp only [List.head?] at h
      rw [← Option.some_inj.mp h]
      exact Bool.of_not_eq_true ha

/-! ### `pyStrip` lemmas -/

theorem pyStrip_mk_eq_self {l : List Char}
    (h : ∀ c ∈ l, pyIsSpace c = false) : pyStrip (String.mk l) = String.mk l := by
  have h1 : l.dropWhile pyIsSpace = l := dropWhile_eq_self_of_all h
  have h2 : l.reverse.dropWhile pyIsSpace = l.reverse :=
    dropWhile_eq_self_of_all (fun c hc => h c (List.mem_reverse.mp hc))
  show String.mk (((String.mk l).toList.dropWhile pyIsSpace).reverse.dropWhile
      pyIsSpace).reverse = String.mk l
  have htl : (String.mk l).toList = l := rfl
  rw [htl, h1, h2, List.reverse_reverse]

theorem pyStrip_eq_self {s : String}
    (h : ∀ c ∈ s.toList, pyIsSpace c = false) : pyStrip s = s :=
  pyStrip_mk_eq_self h

theorem pyStrip_idem (s : String) : pyStrip (pyStrip s) = pyStrip s := by
  show pyStrip (String.mk (((s.toList.dropWhile pyIsSpace).reverse.dropWhile
      pyIsSpace).reverse)) = _
  set d1 := s.toList.dropWhile pyIsSpace with hd1
  set d2 := d1.reverse.dropWhile pyIsSpace with hd2
  show pyStrip (String.mk d2.reverse) = String.mk d2.reverse
  have hstep1 : d2.reverse.dropWhile pyIsSpace = d2.reverse := by
    cases hr : d2.reverse with
    | nil => rfl
    | cons x t =>
      have hx : pyIsSpace x = false := by
        have hd1decomp : d1.reverse = d1.reverse.takeWhile pyIsSpace ++ d2 :=
          (List.takeWhile_append_dropWhile pyIsSpace d1.reverse).symm
        have : d1 = d2.reverse ++ (d1.reverse.takeWhile pyIsSpace).reverse := by
          have := congrArg List.reverse hd1decomp
          simpa using this
        have hhead : d1.head? = some x := by
          rw [this, hr]
          simp
        exact head?_dropWhile (hd1 ▸ hhead)
      rw [List.dropWhile_cons, if_neg (by simp [hx])]
  have hstep2 : d2.dropWhile pyIsSpace = d2 := by
    cases hc : d2 with
    | nil => rfl
    | cons x t =>
      have hx : pyIsSpace x = false := by
        apply head?_dropWhile (p := pyIsSpace) (l := d1.reverse)
        rw [← hd2, hc]
        rfl
      rw [List.dropWhile_cons, if_neg (by simp [hx])]
  show String.mk (((String.mk d2.reverse).toList.dropWhile
      pyIsSpace).reverse.dropWhile pyIsSpace).reverse = _
  have htl : (String.mk d2.reverse).toList = d2.reverse := rfl
  rw [htl, hstep1, List.reverse_reverse, hstep2]

/-! ### Decimal digit lemmas -/

theorem digitChar_isDigit (n : Nat) : (digitChar n).isDigit = true := by
  unfold digitChar
  split <;> decide

theorem digitChar_val {n : Nat} (h : n < 10) : (digitChar n).toNat - 48 = n := by
  interval_cases n <;> decide

theorem digitsToNat_append_one (l : List Char) (c : Char) :
    digitsToNat (l ++ [c]) = 10 * digitsToNat l + (c.toNat - 48) := by
  unfold digitsToNat
  rw [List.foldl_append]
  rfl

theorem natDigitsAux_correct :
    ∀ (fuel n : Nat), n < fuel → digitsToNat (natDigitsAux fuel n) = n
  | 0, n, h => absurd h (Nat.not_lt_zero n)
  | fuel + 1, n, h => by
    unfold natDigitsAux
    by_cases h10 : n < 10
    · rw [if_pos h10]
      show digitsToNat [digitChar n] = n
      unfold digitsToNat
      simp only [List.foldl]
      rw [Nat.mul_zero, Nat.zero_add]
      exact digitChar_val h10
    · rw [if_neg h10]
      have hdiv : n / 10 < fuel := by
        have := Nat.div_lt_self (by omega : 0 < n) (by omega : 1 < 10)
        omega
      rw [digitsToNat_append_one, natDigitsAux_correct fuel (n / 10) hdiv,
        digitChar_val (Nat.mod_lt n (by omega))]
      omega

theorem natDigits_correct (n : Nat) : digitsToNat (natDigits n) = n :=
  natDigitsAux_correct (n + 1) n (Nat.lt_succ_self n)

theorem natDigitsAux_digits :
    ∀ (fuel n : Nat), ∀ c ∈ natDigitsAux fuel n, c.isDigit = true
  | 0, _, c, h => absurd h (List.not_mem_nil c)
  | fuel + 1, n, c, h => by
    unfold natDigitsAux at h
    by_cases h10 : n < 10
    · rw [if_pos h10] at h
      rw [List.mem_singleton.mp h]
      exact digitChar_isDigit n
    · rw [if_neg h10] at h
      rcases List.mem_append.mp h with h' | h'
      · exact natDigitsAux_digits fuel (n / 10) c h'
      · rw [List.mem_singleton.mp h']
        exact digitChar_isDigit (n % 10)

theorem natDigits_digits (n : Nat) : ∀ c ∈ natDigits n, c.isDigit = true :=
  natDigitsAux_digits (n + 1) n

theorem natDigits_ne_nil (n : Nat) : natDigits n ≠ [] := by
  unfold natDigits natDigitsAux
  by_cases h10 : n < 10
  · rw [if_pos h10]; simp
  · rw [if_neg h10]; simp

theorem not_space_of_digit {c : Char} (h : c.isDigit = true) :
    pyIsSpace c = false := by
  have h1 : c ≠ ' ' := fun e => by subst e; exact absurd h (by decide)
  have h2 : c ≠ '\t' := fun e => by subst e; exact absurd h (by decide)
  have h3 : c ≠ '\n' := fun e => by subst e; exact absurd h (by decide)
  have h4 : c ≠ '\r' := fun e => by subst e; exact absurd h (by decide)
  have h5 : c ≠ '\x0b' := fun e => by subst e; exact absurd h (by decide)
  have h6 : c ≠ '\x0c' := fun e => by subst e; exact absurd h (by decide)
  simp [pyIsSpace, h1, h2, h3, h4, h5, h6]

theorem digit_not_sign {c : Char} (h : c.isDigit = true) :
    c ≠ '-' ∧ c ≠ '+' ∧ c ≠ '.' := by
  refine ⟨fun e => ?_, fun e => ?_, fun e => ?_⟩ <;>
    (subst e; exact absurd h (by decide))

theorem digitsToNat_replicate_zero :
    ∀ (k : Nat) (ds : List Char),
      digitsToNat (List.replicate k '0' ++ ds) = digitsToNat ds
  | 0, ds => rfl
  | k + 1, ds => by
    show digitsToNat ('0' :: (List.replicate k '0' ++ ds)) = digitsToNat ds
    unfold digitsToNat
    simp only [List.foldl_cons]
    have : (10 * 0 + ('0'.toNat - 48)) = 0 := by decide
    rw [this]
    exact digitsToNat_replicate_zero k ds

/-! ### Parsing the canonical outputs of `normalize_code` -/


theorem pyParseFloat_digits (ds : List Char)
    (hd : ∀ c ∈ ds, c.isDigit = true) (hne : ds ≠ []) :
    pyParseFloat (String.mk ds) = some ⟨(digitsToNat ds : Int), 0⟩ := by
  obtain ⟨c, t, rfl⟩ : ∃ c t, ds = c :: t := by
    cases ds with
    | nil => exact absurd rfl hne
    | cons c t => exact ⟨c, t, rfl⟩
  have hc := hd c (List.mem_cons_self c t)
  obtain ⟨hc1, hc2, _⟩ := digit_not_sign hc
  have htl : (String.mk (c :: t)).toList = c :: t := rfl
  simp only [pyParseFloat, htl, List.head?_cons, Option.some.injEq]
  simp [hc1, hc2, takeWhile_all hd, dropWhile_all hd]

theorem pyParseFloat_digits_dot0 (ds : List Char)
    (hd : ∀ c ∈ ds, c.isDigit = true) (hne : ds ≠ []) :
    pyParseFloat (String.mk (ds ++ ['.', '0'])) =
      some ⟨(10 * digitsToNat ds : Int), -1⟩ := by
  obtain ⟨c, t, rfl⟩ : ∃ c t, ds = c :: t := by
    cases ds with
    | nil => exact absurd rfl hne
    | cons c t => exact ⟨c, t, rfl⟩
  have hc := hd c (List.mem_cons_self c t)
  obtain ⟨hc1, hc2, _⟩ := digit_not_sign hc
  have htl : (String.mk ((c :: t) ++ ['.', '0'])).toList = (c :: t) ++ ['.', '0'] := rfl
  have htw : (c :: (t ++ ['.', '0'])).takeWhile Char.isDigit = c :: t := by
    show ((c :: t) ++ '.' :: ['0']).takeWhile Char.isDigit = c :: t
    exact takeWhile_append_stop hd (by decide)
  have hdw : (c :: (t ++ ['.', '0'])).dropWhile Char.isDigit = '.' :: ['0'] := by
    show ((c :: t) ++ '.' :: ['0']).dropWhile Char.isDigit = '.' :: ['0']
    exact dropWhile_append_stop hd (by decide)
  have htw0 : (['0'] : List Char).takeWhile Char.isDigit = ['0'] := by decide
  have hdw0 : (['0'] : List Char).dropWhile Char.isDigit = [] := by decide
  have hms : digitsToNat (c :: (t ++ ['0'])) = 10 * digitsToNat (c :: t) := by
    show digitsToNat ((c :: t) ++ ['0']) = 10 * digitsToNat (c :: t)
    rw [digitsToNat_append_one]
    have : '0'.toNat - 48 = 0 := by decide
    omega
  simp only [pyParseFloat, htl, List.head?_cons, Option.some.injEq]
  simp [hc1, hc2, htw, hdw, htw0, hdw0, hms]

theorem pyParseFloat_neg_digits (ds : List Char)
    (hd : ∀ c ∈ ds, c.isDigit = true) (hne : ds ≠ []) :
    pyParseFloat (String.mk ('-' :: ds)) =
      some ⟨-(digitsToNat ds : Int), 0⟩ := by
  obtain ⟨c, t, rfl⟩ : ∃ c t, ds = c :: t := by
    cases ds with
    | nil => exact absurd rfl hne
    | cons c t => exact ⟨c, t, rfl⟩
  have htl : (String.mk ('-' :: c :: t)).toList = '-' :: c :: t := rfl
  simp only [pyParseFloat, htl, List.head?_cons, List.tail_cons,
    Option.some.injEq]
  simp [takeWhile_all hd, dropWhile_all hd]

theorem pyParseFloat_neg_digits_dot0 (ds : List Char)
    (hd : ∀ c ∈ ds, c.isDigit = true) (hne : ds ≠ []) :
    pyParseFloat (String.mk ('-' :: (ds ++ ['.', '0']))) =
      some ⟨-(10 * digitsToNat ds : Int), -1⟩ := by
  obtain ⟨c, t, rfl⟩ : ∃ c t, ds = c :: t := by
    cases ds with
    | nil => exact absurd rfl hne
    | cons c t => exact ⟨c, t, rfl⟩
  have htl : (String.mk ('-' :: ((c :: t) ++ ['.', '0']))).toList =
      '-' :: ((c :: t) ++ ['.', '0']) := rfl
  have htw : (c :: (t ++ ['.', '0'])).takeWhile Char.isDigit = c :: t := by
    show ((c :: t) ++ '.' :: ['0']).takeWhile Char.isDigit = c :: t
    exact takeWhile_append_stop hd (by decide)
  have hdw : (c :: (t ++ ['.', '0'])).dropWhile Char.isDigit = '.' :: ['0'] := by
    show ((c :: t) ++ '.' :: ['0']).dropWhile Char.isDigit = '.' :: ['0']
    exact dropWhile_append_stop hd (by decide)
  have htw0 : (['0'] : List Char).takeWhile Char.isDigit = ['0'] := by decide
  have hdw0 : (['0'] : List Char).dropWhile Char.isDigit = [] := by decide
  have hms : digitsToNat (c :: (t ++ ['0'])) = 10 * digitsToNat (c :: t) := by
    show digitsToNat ((c :: t) ++ ['0']) = 10 * digitsToNat (c :: t)
    rw [digitsToNat_append_one]
    have : '0'.toNat - 48 = 0 := by decide
    omega
  simp only [pyParseFloat, htl, List.head?_cons, List.tail_cons,
    Option.some.injEq]
  simp [htw, hdw, htw0, hdw0, hms]

theorem pyParseFloat_intToStr (n : Int) :
    pyParseFloat (intToStr n) = some ⟨n, 0⟩ := by
  unfold intToStr
  by_cases hn : n < 0
  · rw [if_pos hn,
      pyParseFloat_neg_digits _ (natDigits_digits n.natAbs) (natDigits_ne_nil n.natAbs)]
    rw [natDigits_correct]
    congr 2
    omega
  · rw [if_neg hn,
      pyParseFloat_digits _ (natDigits_digits n.toNat) (natDigits_ne_nil n.toNat)]
    rw [natDigits_correct]
    congr 2
    omega

theorem pyParseFloat_intToStr_dot0 (n : Int) :
    pyParseFloat (intToStr n ++ ".0") = some ⟨10 * n, -1⟩ := by
  unfold intToStr
  by_cases hn : n < 0
  · rw [if_pos hn]
    have hmk : String.mk ('-' :: natDigits n.natAbs) ++ ".0" =
        String.mk ('-' :: (natDigits n.natAbs ++ ['.', '0'])) := rfl
    rw [hmk,
      pyParseFloat_neg_digits_dot0 _ (natDigits_digits n.natAbs) (natDigits_ne_nil n.natAbs)]
    rw [natDigits_correct]
    congr 2
    omega
  · rw [if_neg hn]
    have hmk : String.mk (natDigits n.toNat) ++ ".0" =
        String.mk (natDigits n.toNat ++ ['.', '0']) := rfl
    rw [hmk,
      pyParseFloat_digits_dot0 _ (natDigits_digits n.toNat) (natDigits_ne_nil n.toNat)]
    rw [natDigits_correct]
    congr 2
    omega

theorem pyParseFloat_zfill_intToStr (n : Int) (w : Nat) :
    pyParseFloat (pyZfill (intToStr n) w) = some ⟨n, 0⟩ := by
  unfold pyZfill
  by_cases hlen : w ≤ (intToStr n).toList.length
  · rw [if_pos hlen]
    exact pyParseFloat_intToStr n
  · rw [if_neg hlen]
    unfold intToStr
    by_cases hn : n < 0
    · rw [if_pos hn]
      have htl : (String.mk ('-' :: natDigits n.natAbs)).toList =
          '-' :: natDigits n.natAbs := rfl
      rw [htl]
      dsimp only
      rw [if_pos (Or.inl rfl)]
      have hdig : ∀ c ∈ List.replicate (w - ('-' :: natDigits n.natAbs).length) '0'
          ++ natDigits n.natAbs, c.isDigit = true := by
        intro c hcm
        rcases List.mem_append.mp hcm with h' | h'
        · rw [List.eq_of_mem_replicate h']; decide
        · exact natDigits_digits n.natAbs c h'
      rw [pyParseFloat_neg_digits _ hdig (by simp [natDigits_ne_nil n.natAbs])]
      rw [digitsToNat_replicate_zero, natDigits_correct]
      congr 2
      omega
    · rw [if_neg hn]
      have htl : (String.mk (natDigits n.toNat)).toList = natDigits n.toNat := rfl
      rw [htl]
      obtain ⟨c0, t0, hct⟩ : ∃ c0 t0, natDigits n.toNat = c0 :: t0 := by
        cases h : natDigits n.toNat with
        | nil => exact absurd h (natDigits_ne_nil n.toNat)
        | cons a b => exact ⟨a, b, rfl⟩
      have hc0 : c0.isDigit = true :=
        natDigits_digits n.toNat c0 (by rw [hct]; exact List.mem_cons_self c0 t0)
      obtain ⟨hs1, hs2, _⟩ := digit_not_sign hc0
      rw [hct]
      dsimp only
      rw [if_neg (by simp [hs1, hs2]), ← hct]
      have hdig : ∀ c ∈ List.replicate (w - (natDigits n.toNat).length) '0'
          ++ natDigits n.toNat, c.isDigit = true := by
        intro c hcm
        rcases List.mem_append.mp hcm with h' | h'
        · rw [List.eq_of_mem_replicate h']; decide
        · exact natDigits_digits n.toNat c h'
      rw [pyParseFloat_digits _ hdig (by simp [natDigits_ne_nil n.toNat])]
      rw [digitsToNat_replicate_zero, natDigits_correct]
      congr 2
      omega

theorem pyIsInteger_e0 (n : Int) : pyIsInteger ⟨n, 0⟩ = true := by
  simp [pyIsInteger]

theorem pyFloatInt_e0 (n : Int) : pyFloatInt ⟨n, 0⟩ = n := by
  simp [pyFloatInt]

theorem pyIsInteger_tenth (n : Int) : pyIsInteger ⟨10 * n, -1⟩ = true := by
  simp only [pyIsInteger]
  norm_num [Int.mul_emod_right]

theorem pyFloatInt_tenth (n : Int) : pyFloatInt ⟨10 * n, -1⟩ = n := by
  simp only [pyFloatInt]
  norm_num [Int.mul_ediv_cancel_left]

theorem intToStr_not_space (n : Int) :
    ∀ c ∈ (intToStr n).toList, pyIsSpace c = false := by
  unfold intToStr
  by_cases hn : n < 0
  · rw [if_pos hn]
    intro c hcm
    rcases List.mem_cons.mp hcm with h' | h'
    · rw [h']; decide
    · exact not_space_of_digit (natDigits_digits n.natAbs c h')
  · rw [if_neg hn]
    intro c hcm
    exact not_space_of_digit (natDigits_digits n.toNat c hcm)

theorem intToStr_dot0_not_space (n : Int) :
    ∀ c ∈ (intToStr n ++ ".0").toList, pyIsSpace c = false := by
  intro c hcm
  have : (intToStr n ++ ".0").toList = (intToStr n).toList ++ ['.', '0'] := by
    simp
  rw [this] at hcm
  rcases List.mem_append.mp hcm with h' | h'
  · exact intToStr_not_space n c h'
  · rcases List.mem_cons.mp h' with h'' | h''
    · rw [h'']; decide
    · rw [List.mem_singleton.mp h'']; decide

theorem pyZfill_not_space (s : String) (w : Nat)
    (h : ∀ c ∈ s.toList, pyIsSpace c = false) :
    ∀ c ∈ (pyZfill s w).toList, pyIsSpace c = false := by
  unfold pyZfill
  by_cases hlen : w ≤ s.toList.length
  · rw [if_pos hlen]; exact h
  · rw [if_neg hlen]
    cases hts : s.toList with
    | nil =>
      intro c hcm
      have hcm' : c ∈ List.replicate w '0' := hcm
      rw [List.eq_of_mem_replicate hcm']
      decide
    | cons c0 rest =>
      dsimp only
      by_cases hsign : c0 = '-' ∨ c0 = '+'
      · rw [if_pos hsign]
        intro c hcm
        have hcm' : c ∈ c0 :: (List.replicate (w - (c0 :: rest).length) '0' ++ rest) := hcm
        rcases List.mem_cons.mp hcm' with h' | h'
        · rw [h']; exact h c0 (by rw [hts]; exact List.mem_cons_self c0 rest)
        · rcases List.mem_append.mp h' with h'' | h''
          · rw [List.eq_of_mem_replicate h'']; decide
          · exact h c (by rw [hts]; exact List.mem_cons_of_mem c0 h'')
      · rw [if_neg hsign]
        intro c hcm
        have hcm' : c ∈ List.replicate (w - (c0 :: rest).length) '0' ++ c0 :: rest := hcm
        rcases List.mem_append.mp hcm' with h' | h'
        · rw [List.eq_of_mem_replicate h']; decide
        · exact h c (by rw [hts]; exact h')

/-- C8 (confirmed): the era-specific cause-code normalization is
idempotent: for every ICD-version label and every input string,
`normalize_code (normalize_code x v) v = normalize_code x v`. -/
theorem C8_normalize_idempotent (version x : String) :
    normalize_code (normalize_code x version) version = normalize_code x version := by
  simp only [normalize_code]
  by_cases b1 : (["ICD-1", "ICD-2", "ICD-3", "ICD-4", "ICD-5"].any
      fun p => pyStartsWith version p) = true
  · rw [if_pos b1, if_pos b1]
    cases hp : pyParseFloat (pyStrip x) with
    | none =>
      dsimp only
      rw [pyStrip_idem, hp]
    | some f =>
      dsimp only
      by_cases hint : pyIsInteger f = true
      · rw [if_pos hint]
        rw [pyStrip_eq_self (intToStr_dot0_not_space (pyFloatInt f)),
          pyParseFloat_intToStr_dot0]
        dsimp only
        rw [if_pos (pyIsInteger_tenth (pyFloatInt f)), pyFloatInt_tenth]
      · rw [if_neg hint, pyStrip_idem, hp]
        dsimp only
        rw [if_neg hint]
  · rw [if_neg b1, if_neg b1]
    by_cases b2 : (["ICD-6", "ICD-7", "ICD-8", "ICD-9"].any
        fun p => pyStartsWith version p) = true
    · rw [if_pos b2, if_pos b2]
      cases hp : pyParseFloat (pyStrip x) with
      | none =>
        dsimp only
        rw [pyStrip_idem, hp]
      | some f =>
        dsimp only
        by_cases hint : pyIsInteger f = true
        · rw [if_pos hint]
          by_cases hlt : pyFloatInt f < 10000
          · rw [if_pos hlt]
            rw [pyStrip_eq_self
                (pyZfill_not_space _ 4 (intToStr_not_space (pyFloatInt f))),
              pyParseFloat_zfill_intToStr]
            dsimp only
            rw [if_pos (pyIsInteger_e0 (pyFloatInt f)), pyFloatInt_e0,
              if_pos hlt]
          · rw [if_neg hlt]
            rw [pyStrip_eq_self (intToStr_not_space (pyFloatInt f)),
              pyParseFloat_intToStr]
            dsimp only
            rw [if_pos (pyIsInteger_e0 (pyFloatInt f)), pyFloatInt_e0,
              if_neg hlt]
        · rw [if_neg hint, pyStrip_idem, hp]
          dsimp only
          rw [if_neg hint]
    · rw [if_neg b2, if_neg b2, pyStrip_idem]

/-! ### ICD era lookup (`rebuild_harmonized_from_archive.py`)

`mortality_source_config.json` does not exist in the repository, so
`load_icd_year_ranges()` returns `DEFAULT_ICD_YEAR_RANGES`; the dict is
modelled as a list in insertion order. -/

def DEFAULT_ICD_YEAR_RANGES : List (String × Int × Int) := [
  ("ICD-1 (1901-1910)", 1901, 1910),
  ("ICD-2 (1911-1920)", 1911, 1920),
  ("ICD-3 (1921-1930)", 1921, 1930),
  ("ICD-4 (1931-1939)", 1931, 1939),
  ("ICD-5 (1940-1949)", 1940, 1949),
  ("ICD-6 (1950-1957)", 1950, 1957),
  ("ICD-7 (1958-1967)", 1958, 1967),
  ("ICD-8 (1968-1978)", 1968, 1978),
  ("ICD-9a (1979-1984)", 1979, 1984),
  ("ICD-9b (1985-1993)", 1985, 1993),
  ("ICD-9c (1994-2000)", 1994, 2000),
  ("ICD-10 (2001-9999)", 2001, 9999)]

/-- Python `max(items, key=…)`: the first element attaining the maximal
key (`Int`-keyed variant of `pickFirstMax`). -/
def pickFirstMaxInt {α : Type} (key : α → Int) : List α → Option α
  | [] => none
  | a :: l =>
    match pickFirstMaxInt key l with
    | none => some a
    | some b => if key b > key a then some b else some a

/-- `get_icd_version_for_year(year)` from
`rebuild_harmonized_from_archive.py`: the first configured range
containing the year wins; otherwise fall back to the range with the
greatest start year; `none` only when the range table is empty. -/
def get_icd_version_for_year (ranges : List (String × Int × Int))
    (year : Int) : Option String :=
  match ranges.find? (fun r => decide (r.2.1 ≤ year ∧ year ≤ r.2.2)) with
  | some r => some r.1
  | none =>
    match pickFirstMaxInt (fun r => r.2.1) ranges with
    | some r => some r.1
    | none => none

/-- C10 (confirmed): with the default year-range table the era lookup is
total — every integer year gets an era; a year inside a configured range
gets that range's label; any year outside every range (before 1901 or
after 9999) falls back to the greatest-start range "ICD-10 (2001-9999)". -/
theorem C10_era_lookup_total (y : Int) :
    (∃ v, get_icd_version_for_year DEFAULT_ICD_YEAR_RANGES y = some v)
    ∧ ((y < 1901 ∨ 9999 < y) →
        get_icd_version_for_year DEFAULT_ICD_YEAR_RANGES y =
          some "ICD-10 (2001-9999)")
    ∧ (∀ l s e, (l, s, e) ∈ DEFAULT_ICD_YEAR_RANGES → s ≤ y → y ≤ e →
        get_icd_version_for_year DEFAULT_ICD_YEAR_RANGES y = some l) := by
  refine ⟨?_, ?_, ?_⟩
  · unfold get_icd_version_for_year
    cases hf : DEFAULT_ICD_YEAR_RANGES.find?
        (fun r => decide (r.2.1 ≤ y ∧ y ≤ r.2.2)) with
    | some r => exact ⟨r.1, rfl⟩
    | none => exact ⟨"ICD-10 (2001-9999)", rfl⟩
  · intro hy
    unfold get_icd_version_for_year
    have hf : DEFAULT_ICD_YEAR_RANGES.find?
        (fun r => decide (r.2.1 ≤ y ∧ y ≤ r.2.2)) = none := by
      rw [List.find?_eq_none]
      intro r hr
      fin_cases hr <;> (simp; omega)
    rw [hf]
    rfl
  · intro l s e hmem h1 h2
    fin_cases hmem <;>
      (simp only [get_icd_version_for_year, DEFAULT_ICD_YEAR_RANGES]
       repeat rw [List.find?_cons_of_neg _ (by simp; omega)]
       rw [List.find?_cons_of_pos _ (by simp; omega)])

/-- C10 (witness): the era lookup instantiated at 1925 (inside the ICD-3
range) and 1880 (outside every range). -/
theorem C10_era_lookup_total_witness :
    get_icd_version_for_year DEFAULT_ICD_YEAR_RANGES 1925 =
      some "ICD-3 (1921-1930)"
    ∧ get_icd_version_for_year DEFAULT_ICD_YEAR_RANGES 1880 =
      some "ICD-10 (2001-9999)" :=
  ⟨(C10_era_lookup_total 1925).2.2 "ICD-3 (1921-1930)" 1921 1930
      (by decide) (by norm_num) (by norm_num),
    (C10_era_lookup_total 1880).2.1 (by norm_num)⟩

/-! ### `standardize_mortality_data` record filter
(`build_comprehensive_mortality_1901_2025.py`, lines 614–618).

A row of the standardized table; `year` and `deaths` are numeric-or-NaN
columns (`Option Int`; `pd.to_numeric(errors='coerce')` maps a
non-numeric cell to NaN, which `none` already covers, and is the
identity on a numeric column). -/

structure MRecord where
  year : Option Int
  cause : String
  sex : String
  age : String
  deaths : Option Int
deriving DecidableEq, Repr

/-- The filter chain of `standardize_mortality_data`:
`dropna(subset=['year','deaths'])`, then keep `deaths > 0` or NaN
(pandas comparisons with NaN are false), then `to_numeric` (identity
here), then keep `deaths > 0`. -/
def standardize_filter (rows : List MRecord) : List MRecord :=
  let r1 := rows.filter (fun r => r.year.isSome && r.deaths.isSome)
  let r2 := r1.filter (fun r =>
    (match r.deaths with
     | some d => decide (0 < d)
     | none => false) || r.deaths.isNone)
  r2.filter (fun r =>
    match r.deaths with
    | some d => decide (0 < d)
    | none => false)

/-- C9 (confirmed): every record surviving standardization has a numeric
deaths value strictly greater than zero, and records with missing, zero
or negative deaths are dropped. -/
theorem C9_standardize_deaths_positive (rows : List MRecord) :
    (∀ r ∈ standardize_filter rows, ∃ d, r.deaths = some d ∧ 0 < d)
    ∧ (∀ r ∈ rows,
        (r.deaths = none ∨ ∃ d, r.deaths = some d ∧ d ≤ 0) →
        r ∉ standardize_filter rows) := by
  constructor
  · intro r hr
    have h3 := (List.mem_filter.mp hr).2
    cases hd : r.deaths with
    | none => rw [hd] at h3; simp at h3
    | some d =>
      refine ⟨d, rfl, ?_⟩
      rw [hd] at h3
      simpa using h3
  · intro r _ hbad hr
    have h3 := (List.mem_filter.mp hr).2
    rcases hbad with h | ⟨d, hd, hle⟩
    · rw [h] at h3; simp at h3
    · rw [hd] at h3
      simp only [decide_eq_true_eq] at h3
      omega

/-- C9 (witness): the filter applied to a concrete table — a positive
record survives (and the theorem certifies its deaths are positive),
while zero-deaths, negative-deaths and missing-deaths records are
rejected. -/
theorem C9_standardize_deaths_positive_witness :
    (∃ d, (⟨some 1901, "Influenza", "M", "0", some 5⟩ : MRecord).deaths
        = some d ∧ 0 < d)
    ∧ (⟨some 1901, "Plague", "F", "1", some 0⟩ : MRecord) ∉
        standardize_filter
          [⟨some 1901, "Influenza", "M", "0", some 5⟩,
           ⟨some 1901, "Plague", "F", "1", some 0⟩,
           ⟨some 1902, "Measles", "M", "2", some (-3)⟩,
           ⟨some 1903, "Cholera", "F", "3", none⟩] :=
  ⟨(C9_standardize_deaths_positive
      [⟨some 1901, "Influenza", "M", "0", some 5⟩,
       ⟨some 1901, "Plague", "F", "1", some 0⟩,
       ⟨some 1902, "Measles", "M", "2", some (-3)⟩,
       ⟨some 1903, "Cholera", "F", "3", none⟩]).1
      ⟨some 1901, "Influenza", "M", "0", some 5⟩ (by decide),
    (C9_standardize_deaths_positive
      [⟨some 1901, "Influenza", "M", "0", some 5⟩,
       ⟨some 1901, "Plague", "F", "1", some 0⟩,
       ⟨some 1902, "Measles", "M", "2", some (-3)⟩,
       ⟨some 1903, "Cholera", "F", "3", none⟩]).2
      ⟨some 1901, "Plague", "F", "1", some 0⟩ (by decide)
      (Or.inr ⟨0, rfl, le_refl 0⟩)⟩

/-! ### The code/description table builder (`build_code_descriptions.py`)

A row of the combined table (after `standardize_description_columns`,
which sets `source_file` to the era's file name, and the tagging
`df["icd_version"] = period`). -/

structure DescRow where
  code : String
  description : String
  source_file : String
  icd_version : String
deriving DecidableEq, Repr

/-- One era's entry of the `icd_files` list together with its extraction
outcome: `rows = none` models a missing source spreadsheet
(`filepath.exists()` false); `rows = some rs` models the rows obtained by
`extract_descriptions_from_xls(x)` followed by
`standardize_description_columns` (possibly empty on extraction
failure). -/
structure EraSource where
  filename : String
  period : String
  rows : Option (List (String × String))
deriving DecidableEq, Repr

/-- `build_code_description_mapping` (lines 209–276): iterate the era
list; a missing file is skipped (`continue`); a nonempty standardized
frame is tagged with its era and appended; the ICD-10 frame (from
`extract_icd10_codes_from_data`, here a parameter already in row form) is
appended when nonempty; the result is the concatenation (`pd.concat`),
and the empty result is returned as an empty frame. -/
def build_code_description_mapping (eras : List EraSource)
    (icd10 : List DescRow) : List DescRow :=
  eras.flatMap (fun e =>
    match e.rows with
    | none => []
    | some rs =>
      if rs = [] then []
      else rs.map (fun cd => ⟨cd.1, cd.2, e.filename, e.period⟩))
  ++ (if icd10 = [] then [] else icd10)

/-- `sort_values("source_file", ascending=False)`.  pandas' default
quicksort is not stable, so the order among rows with equal
`source_file` is implementation-defined; any descending order is a
faithful model for the properties proved about it. -/
def sortBySourceFileDesc (rows : List DescRow) : List DescRow :=
  rows.mergeSort (fun a b => decide (b.source_file ≤ a.source_file))

/-- Generic `drop_duplicates(subset=[key], keep='first')`: keep the
first row for each key value. -/
def dedupByKey {α : Type} (key : α → String) (rows : List α) : List α :=
  go [] rows
where
  go (seen : List String) : List α → List α
    | [] => []
    | r :: t => if key r ∈ seen then go seen t else r :: go (key r :: seen) t

/-- `drop_duplicates(subset=["code"], keep="first")` on the description
table. -/
def dropDuplicatesByCode (rows : List DescRow) : List DescRow :=
  dedupByKey (fun r => r.code) rows

/-- Exit code and outputs of `main` in `build_code_descriptions.py` on
the rebuild path (no valid pre-existing output, so the early
`sys.exit(0)` skip is not taken): `sys.exit(1)` iff the combined mapping
is empty; otherwise the full table and the per-code simplified table are
written and the process exits 0. -/
def build_descriptions_main (eras : List EraSource) (icd10 : List DescRow) :
    Nat × Option (List DescRow) × Option (List DescRow) :=
  let combined := build_code_description_mapping eras icd10
  if combined = [] then (1, none, none)
  else (0, some combined,
    some (dropDuplicatesByCode (sortBySourceFileDesc combined)))

theorem dedupByKey_go_pairwise {α : Type} (key : α → String) (rows : List α) :
    ∀ seen : List String,
      (dedupByKey.go key seen rows).Pairwise (fun a b => key a ≠ key b)
      ∧ ∀ r ∈ dedupByKey.go key seen rows, key r ∉ seen := by
  induction rows with
  | nil => intro seen; exact ⟨List.Pairwise.nil, by simp [dedupByKey.go]⟩
  | cons r t ih =>
    intro seen
    by_cases hs : key r ∈ seen
    · simpa [dedupByKey.go, hs] using ih seen
    · simp only [dedupByKey.go, if_neg hs]
      obtain ⟨hpw, hmem⟩ := ih (key r :: seen)
      refine ⟨List.Pairwise.cons ?_ hpw, ?_⟩
      · intro b hb
        exact fun he => (hmem b hb) (he ▸ List.mem_cons_self (key r) seen)
      · intro x hx
        rcases List.mem_cons.mp hx with h' | h'
        · rw [h']; exact hs
        · exact fun hxs =>
            (hmem x h') (List.mem_cons_of_mem (key r) hxs)

theorem dedupByKey_pairwise {α : Type} (key : α → String) (rows : List α) :
    (dedupByKey key rows).Pairwise (fun a b => key a ≠ key b) :=
  (dedupByKey_go_pairwise key rows []).1

/-- C6 (confirmed): in the code/description builder a missing era
spreadsheet is non-fatal — that era is simply absent from the combined
output and the remaining eras are processed unchanged — and, on the
rebuild path, the process exits 1 exactly when the combined table over
all eras is empty (and exits 0 otherwise, having written the output). -/
theorem C6_missing_era_nonfatal (pre post : List EraSource)
    (f p : String) (icd10 : List DescRow) :
    build_code_description_mapping (pre ++ ⟨f, p, none⟩ :: post) icd10 =
      build_code_description_mapping (pre ++ post) icd10
    ∧ ∀ eras : List EraSource,
        ((build_descriptions_main eras icd10).1 = 1 ↔
          build_code_description_mapping eras icd10 = []) := by
  constructor
  · unfold build_code_description_mapping
    rw [List.flatMap_append, List.flatMap_append]
    simp [List.flatMap_cons]
  · intro eras
    unfold build_descriptions_main
    by_cases h : build_code_description_mapping eras icd10 = []
    · simp [h]
    · simp [h]

/-- C7 (counterexample): an era whose sheet lists the same code twice
yields a combined table with two distinct rows for the same
(code, icd_version) key — the full output is not deduplicated per
(code, era) at all. -/
theorem C7_counterexample :
    build_code_description_mapping
        [⟨"icd1.xls", "ICD-1 (1901-1910)", some [("1.0", "desc A"), ("1.0", "desc B")]⟩] [] =
      [⟨"1.0", "desc A", "icd1.xls", "ICD-1 (1901-1910)"⟩,
       ⟨"1.0", "desc B", "icd1.xls", "ICD-1 (1901-1910)"⟩]
    ∧ (⟨"1.0", "desc A", "icd1.xls", "ICD-1 (1901-1910)"⟩ : DescRow).code =
        (⟨"1.0", "desc B", "icd1.xls", "ICD-1 (1901-1910)"⟩ : DescRow).code
    ∧ (⟨"1.0", "desc A", "icd1.xls", "ICD-1 (1901-1910)"⟩ : DescRow).icd_version =
        (⟨"1.0", "desc B", "icd1.xls", "ICD-1 (1901-1910)"⟩ : DescRow).icd_version
    ∧ (⟨"1.0", "desc A", "icd1.xls", "ICD-1 (1901-1910)"⟩ : DescRow) ≠
        (⟨"1.0", "desc B", "icd1.xls", "ICD-1 (1901-1910)"⟩ : DescRow) := by
  decide

/-- C7 (amended): the combined code/description table is the plain union
(concatenation) across eras with no per-(code, era) deduplication — its
length is the total number of loaded rows; only the separate simplified
mapping is deduplicated, per code alone (not per (code, era)), keeping
the first entry after sorting by `source_file` descending, so it
contains at most one row per code. -/
theorem C7_union_no_dedup (eras : List EraSource) (icd10 : List DescRow) :
    (build_code_description_mapping eras icd10).length =
      (eras.map (fun e =>
        match e.rows with
        | none => 0
        | some rs => rs.length)).sum
      + (if icd10 = [] then 0 else icd10.length)
    ∧ (dropDuplicatesByCode
        (sortBySourceFileDesc
          (build_code_description_mapping eras icd10))).Pairwise
        (fun a b => a.code ≠ b.code) := by
  constructor
  · unfold build_code_description_mapping
    rw [List.length_append, List.length_flatMap]
    congr 1
    · apply congrArg List.sum
      apply List.map_congr_left
      intro e _
      cases hrs : e.rows with
      | none => simp [hrs]
      | some rs =>
        by_cases h : rs = []
        · simp [hrs, h]
        · simp [hrs, h]
    · by_cases h : icd10 = [] <;> simp [h]
  · exact dedupByKey_pairwise _ _

/-! ### The harmonization driver (`rebuild_harmonized_from_archive.py`, `main`)

Rows of the four input tables.  The driver first filters
`df[df['cause'].notna()]`, so a fact row's `cause` is a plain `String`;
`year`, `sex`, `age`, `deaths` are carried through untouched (their exact
types do not matter to the logic, `deaths` is kept as `Int`). -/

structure FactRow where
  year : Int
  cause : String
  sex : String
  age : String
  deaths : Int
deriving DecidableEq, Repr

/-- A row of `icd_code_descriptions.csv` as used by the driver
(`desc_df[['code', 'icd_version', 'description']]`, `code` cast to
string; an empty description cell is NaN). -/
structure CodeDescRow where
  code : String
  icd_version : String
  description : Option String
deriving DecidableEq, Repr

/-- A row of `icd_harmonized_categories.csv` or of the override file
(identical shape; `code` cast to string, the three value columns may be
NaN). -/
structure HarmRow where
  code : String
  icd_version : String
  harmonized_category : Option String
  harmonized_category_name : Option String
  classification_confidence : Option String
deriving DecidableEq, Repr

/-- The working dataframe row of the driver.  The three classification
columns are created with `pd.NA` before overrides are applied, and
`cause_description` is created by the description merge; a row starts
with all of them `none` (the source materializes the columns later, an
absent column being indistinguishable from an all-NA one). -/
structure StateRow where
  year : Int
  cause : String
  icd_version : String
  sex : String
  age : String
  deaths : Int
  cause_description : Option String
  harmonized_category : Option String
  harmonized_category_name : Option String
  classification_confidence : Option String
deriving DecidableEq, Repr

/-- A row of the final CSV, after `df = df[final_cols]`. -/
structure OutRow where
  year : Int
  cause : String
  cause_description : Option String
  harmonized_category : Option String
  harmonized_category_name : Option String
  classification_confidence : Option String
  sex : String
  age : String
  deaths : Int
deriving DecidableEq, Repr

/-- The `final_cols` column list of the driver. -/
def final_cols : List String :=
  ["year", "cause", "cause_description", "harmonized_category",
   "harmonized_category_name", "classification_confidence", "sex", "age",
   "deaths"]

/-- `ICD_YEAR_RANGES = load_icd_year_ranges()`: the config file is absent
from the repository, so this is the default table. -/
def ICD_YEAR_RANGES : List (String × Int × Int) := DEFAULT_ICD_YEAR_RANGES

/-- The era assigned to a year by `df['year'].apply(get_icd_version_for_year)`.
With the default table the lookup never returns `None`
(`C10_era_lookup_total`); the `"None"` default is dead code kept for
totality. -/
def eraOf (y : Int) : String :=
  (get_icd_version_for_year ICD_YEAR_RANGES y).getD "None"

/-- `df['icd_version'] = …` followed by
`df['cause'] = df.apply(lambda r: normalize_code(r['cause'], r['icd_version']), axis=1)`,
with the later-materialized NA columns already present. -/
def initRow (f : FactRow) : StateRow :=
  { year := f.year, cause := normalize_code f.cause (eraOf f.year),
    icd_version := eraOf f.year, sex := f.sex, age := f.age,
    deaths := f.deaths, cause_description := none,
    harmonized_category := none, harmonized_category_name := none,
    classification_confidence := none }

/-- The year-aware description merge
(`df.merge(desc_df[…], left_on=['cause','icd_version'],
right_on=['code','icd_version'], how='left')`): a pandas left merge
keeps the left rows in order, emits one output row per matching right
row (in right-table order), and a single NaN-extended row when nothing
matches. -/
def leftMergeDesc (desc : List CodeDescRow) (s : List StateRow) :
    List StateRow :=
  s.flatMap (fun r =>
    match desc.filter (fun d => d.code == r.cause && d.icd_version == r.icd_version) with
    | [] => [{ r with cause_description := none }]
    | ms => ms.map (fun d => { r with cause_description := d.description }))

/-- Override-code normalization
(`overrides_df['code'] = overrides_df.apply(lambda r: normalize_code(r['code'], r['icd_version']), axis=1)`). -/
def normalizeOvr (o : HarmRow) : HarmRow :=
  { o with code := normalize_code o.code o.icd_version }

/-- The override merge and `combine_first`: for each of the three
classification columns the override value wins wherever it is non-null.
Applied only when an override table is present and nonempty. -/
def applyOverrides (ovr : Option (List HarmRow)) (s : List StateRow) :
    List StateRow :=
  match ovr with
  | none => s
  | some ol =>
    if ol = [] then s
    else
      let ol' := ol.map normalizeOvr
      s.flatMap (fun r =>
        match ol'.filter (fun o => o.code == r.cause && o.icd_version == r.icd_version) with
        | [] => [r]
        | ms => ms.map (fun o =>
            { r with
              harmonized_category :=
                o.harmonized_category.or r.harmonized_category,
              harmonized_category_name :=
                o.harmonized_category_name.or r.harmonized_category_name,
              classification_confidence :=
                o.classification_confidence.or r.classification_confidence }))

/-- The default-mapping merge and `fillna`: the default value is used
only where the column is still null. -/
def applyDefaults (harm : List HarmRow) (s : List StateRow) :
    List StateRow :=
  s.flatMap (fun r =>
    match harm.filter (fun h => h.code == r.cause && h.icd_version == r.icd_version) with
    | [] => [r]
    | ms => ms.map (fun h =>
        { r with
          harmonized_category :=
            r.harmonized_category.or h.harmonized_category,
          harmonized_category_name :=
            r.harmonized_category_name.or h.harmonized_category_name,
          classification_confidence :=
            r.classification_confidence.or h.classification_confidence }))

/-- The code-only fallback: only run when some row still has a null
`harmonized_category`; `fallback_map` is the harmonization table
deduplicated per code keeping the first row, merged on code alone, then
`fillna`. -/
def applyFallback (harm : List HarmRow) (s : List StateRow) :
    List StateRow :=
  if s.any (fun r => r.harmonized_category.isNone) then
    let fb := dedupByKey (fun h : HarmRow => h.code) harm
    s.flatMap (fun r =>
      match fb.filter (fun h => h.code == r.cause) with
      | [] => [r]
      | ms => ms.map (fun h =>
          { r with
            harmonized_category :=
              r.harmonized_category.or h.harmonized_category,
            harmonized_category_name :=
              r.harmonized_category_name.or h.harmonized_category_name,
            classification_confidence :=
              r.classification_confidence.or h.classification_confidence }))
  else s

/-- `df = df[final_cols]`: keep exactly the `final_cols` columns, in that
order, dropping `icd_version`. -/
def projectFinal (s : List StateRow) : List OutRow :=
  s.map (fun r =>
    ⟨r.year, r.cause, r.cause_description, r.harmonized_category,
     r.harmonized_category_name, r.classification_confidence, r.sex,
     r.age, r.deaths⟩)

/-- The dataframe state after all classification steps of `main`. -/
def rebuild_harmonized_state (facts : List FactRow) (desc : List CodeDescRow)
    (harm : List HarmRow) (ovr : Option (List HarmRow)) : List StateRow :=
  applyFallback harm
    (applyDefaults harm
      (applyOverrides ovr
        (leftMergeDesc desc (facts.map initRow))))

/-- The driver `main` of `rebuild_harmonized_from_archive.py`: final rows
plus the description match-rate counters (`matched`, `total`, computed
right after the description merge; the logged rate is
`matched / total * 100`). -/
def rebuild_harmonized_main (facts : List FactRow) (desc : List CodeDescRow)
    (harm : List HarmRow) (ovr : Option (List HarmRow)) :
    List OutRow × Nat × Nat :=
  let s1 := leftMergeDesc desc (facts.map initRow)
  (projectFinal (rebuild_harmonized_state facts desc harm ovr),
    s1.countP (fun r => r.cause_description.isSome), s1.length)

/-! ### Driver step lemmas

`PresKey a b` says a step turned row `a` into row `b` without touching
the identifying columns. -/

def PresKey (a b : StateRow) : Prop :=
  b.year = a.year ∧ b.cause = a.cause ∧ b.icd_version = a.icd_version
  ∧ b.sex = a.sex ∧ b.age = a.age ∧ b.deaths = a.deaths

theorem PresKey.refl (a : StateRow) : PresKey a a :=
  ⟨rfl, rfl, rfl, rfl, rfl, rfl⟩

theorem PresKey.trans {a b c : StateRow} (h1 : PresKey a b) (h2 : PresKey b c) :
    PresKey a c := by
  obtain ⟨e1, e2, e3, e4, e5, e6⟩ := h1
  obtain ⟨f1, f2, f3, f4, f5, f6⟩ := h2
  exact ⟨f1.trans e1, f2.trans e2, f3.trans e3, f4.trans e4, f5.trans e5,
    f6.trans e6⟩

theorem filter_le_one_cases {α : Type} (l : List α) (p : α → Bool)
    (h : (l.filter p).length ≤ 1) :
    l.filter p = [] ∨ ∃ x, l.filter p = [x] := by
  cases hf : l.filter p with
  | nil => exact Or.inl rfl
  | cons a t =>
    cases t with
    | nil => exact Or.inr ⟨a, rfl⟩
    | cons b u => rw [hf] at h; simp at h

theorem eq_of_mem_of_len_le_one {α : Type} {l : List α} (h : l.length ≤ 1)
    {a b : α} (ha : a ∈ l) (hb : b ∈ l) : a = b := by
  cases l with
  | nil => simp at ha
  | cons x t =>
    cases t with
    | nil =>
      rw [List.mem_singleton.mp ha, List.mem_singleton.mp hb]
    | cons y u => simp at h

theorem filter_key_le_one {α : Type} (key : α → String) :
    ∀ {l : List α}, l.Pairwise (fun a b => key a ≠ key b) →
      ∀ c, (l.filter (fun x => key x == c)).length ≤ 1
  | [], _, c => by simp
  | a :: t, hp, c => by
    have ha : ∀ x ∈ t, key a ≠ key x :=
      fun x hx => List.rel_of_pairwise_cons hp hx
    have ht := List.Pairwise.of_cons hp
    by_cases hc : key a = c
    · have hnil : t.filter (fun x => key x == c) = [] := by
        rw [List.filter_eq_nil_iff]
        intro x hx
        simp only [beq_iff_eq]
        exact fun he => ha x hx (hc ▸ he ▸ rfl)
      simp [List.filter_cons, hc, hnil]
    · have := filter_key_le_one key ht c
      simp only [List.filter_cons, beq_iff_eq, if_neg hc]
      exact this

theorem countP_lt_length {α : Type} {p : α → Bool} :
    ∀ {l : List α} {a : α}, a ∈ l → p a = false → l.countP p < l.length
  | [], a, ha, _ => absurd ha (List.not_mem_nil a)
  | b :: t, a, ha, hpa => by
    rw [List.countP_cons, List.length_cons]
    rcases List.mem_cons.mp ha with h | h
    · rw [← h, hpa]
      simpa using Nat.lt_succ_of_le (List.countP_le_length p)
    · have := countP_lt_length h hpa
      split <;> omega

theorem forall2_flatMap_one {α : Type} {P : α → α → Prop} {f : α → List α} :
    ∀ {s : List α}, (∀ r ∈ s, ∃ x, f r = [x] ∧ P r x) →
      List.Forall₂ P s (s.flatMap f)
  | [], _ => List.Forall₂.nil
  | r :: t, h => by
    obtain ⟨x, hx, hP⟩ := h r (List.mem_cons_self r t)
    rw [List.flatMap_cons, hx]
    exact List.Forall₂.cons hP
      (forall2_flatMap_one fun a ha => h a (List.mem_cons_of_mem r ha))

theorem forall2_presKey_trans {l1 l2 l3 : List StateRow} :
    List.Forall₂ PresKey l1 l2 → List.Forall₂ PresKey l2 l3 →
      List.Forall₂ PresKey l1 l3 := by
  intro h1
  induction h1 generalizing l3 with
  | nil => intro h2; cases h2; exact List.Forall₂.nil
  | cons hab h12 ih =>
    intro h2
    cases h2 with
    | cons hbc h23 => exact List.Forall₂.cons (hab.trans hbc) (ih h23)

/-! Per-step singleton behaviour under key-unique lookup tables, and
per-step existence / back-tracking in the general case. -/

theorem leftMergeDesc_forall2 (desc : List CodeDescRow)
    (hu : ∀ c v, (desc.filter (fun d => d.code == c && d.icd_version == v)).length ≤ 1)
    (s : List StateRow) :
    List.Forall₂ PresKey s (leftMergeDesc desc s) := by
  apply forall2_flatMap_one
  intro r _
  rcases filter_le_one_cases _ _ (hu r.cause r.icd_version) with hf | ⟨x, hf⟩
  · exact ⟨{ r with cause_description := none }, by rw [hf],
      ⟨rfl, rfl, rfl, rfl, rfl, rfl⟩⟩
  · exact ⟨{ r with cause_description := x.description }, by rw [hf]; rfl,
      ⟨rfl, rfl, rfl, rfl, rfl, rfl⟩⟩

theorem applyOverrides_forall2 (ovr : Option (List HarmRow))
    (hu : ∀ ol, ovr = some ol →
      ∀ c v, ((ol.map normalizeOvr).filter
        (fun o => o.code == c && o.icd_version == v)).length ≤ 1)
    (s : List StateRow) :
    List.Forall₂ PresKey s (applyOverrides ovr s) := by
  cases ovr with
  | none => exact List.forall₂_same.mpr fun r _ => PresKey.refl r
  | some ol =>
    unfold applyOverrides
    dsimp only
    by_cases hol : ol = []
    · rw [if_pos hol]
      exact List.forall₂_same.mpr fun r _ => PresKey.refl r
    · rw [if_neg hol]
      apply forall2_flatMap_one
      intro r _
      rcases filter_le_one_cases _ _ (hu ol rfl r.cause r.icd_version) with hf | ⟨x, hf⟩
      · exact ⟨r, by rw [hf], PresKey.refl r⟩
      · exact ⟨{ r with
            harmonized_category := x.harmonized_category.or r.harmonized_category,
            harmonized_category_name :=
              x.harmonized_category_name.or r.harmonized_category_name,
            classification_confidence :=
              x.classification_confidence.or r.classification_confidence },
          by rw [hf]; rfl, ⟨rfl, rfl, rfl, rfl, rfl, rfl⟩⟩

theorem applyDefaults_forall2 (harm : List HarmRow)
    (hu : ∀ c v, (harm.filter (fun h => h.code == c && h.icd_version == v)).length ≤ 1)
    (s : List StateRow) :
    List.Forall₂ PresKey s (applyDefaults harm s) := by
  apply forall2_flatMap_one
  intro r _
  rcases filter_le_one_cases _ _ (hu r.cause r.icd_version) with hf | ⟨x, hf⟩
  · exact ⟨r, by rw [hf], PresKey.refl r⟩
  · exact ⟨{ r with
        harmonized_category := r.harmonized_category.or x.harmonized_category,
        harmonized_category_name :=
          r.harmonized_category_name.or x.harmonized_category_name,
        classification_confidence :=
          r.classification_confidence.or x.classification_confidence },
      by rw [hf]; rfl, ⟨rfl, rfl, rfl, rfl, rfl, rfl⟩⟩

theorem applyFallback_forall2 (harm : List HarmRow) (s : List StateRow) :
    List.Forall₂ PresKey s (applyFallback harm s) := by
  unfold applyFallback
  by_cases hc : (s.any fun r => r.harmonized_category.isNone) = true
  · rw [if_pos hc]
    apply forall2_flatMap_one
    intro r _
    have hu : ((dedupByKey (fun h : HarmRow => h.code) harm).filter
        (fun h => h.code == r.cause)).length ≤ 1 :=
      filter_key_le_one _ (dedupByKey_pairwise _ harm) r.cause
    rcases filter_le_one_cases _ _ hu with hf | ⟨x, hf⟩
    · exact ⟨r, by rw [hf], PresKey.refl r⟩
    · exact ⟨{ r with
          harmonized_category := r.harmonized_category.or x.harmonized_category,
          harmonized_category_name :=
            r.harmonized_category_name.or x.harmonized_category_name,
          classification_confidence :=
            r.classification_confidence.or x.classification_confidence },
        by rw [hf]; rfl, ⟨rfl, rfl, rfl, rfl, rfl, rfl⟩⟩
  · rw [if_neg hc]
    exact List.forall₂_same.mpr fun r _ => PresKey.refl r

theorem mem_applyDefaults_src {harm : List HarmRow} {s : List StateRow}
    {r' : StateRow} (h : r' ∈ applyDefaults harm s) :
    ∃ r ∈ s, PresKey r r' ∧ r'.cause_description = r.cause_description
      ∧ (r.harmonized_category.isSome = true →
          r'.harmonized_category = r.harmonized_category)
      ∧ (r.harmonized_category_name.isSome = true →
          r'.harmonized_category_name = r.harmonized_category_name)
      ∧ (r.classification_confidence.isSome = true →
          r'.classification_confidence = r.classification_confidence) := by
  obtain ⟨r, hr, hloc⟩ := List.mem_flatMap.mp h
  refine ⟨r, hr, ?_⟩
  cases hms : harm.filter (fun h => h.code == r.cause && h.icd_version == r.icd_version) with
  | nil =>
    rw [hms] at hloc
    rw [List.mem_singleton.mp hloc]
    exact ⟨PresKey.refl r, rfl, fun _ => rfl, fun _ => rfl, fun _ => rfl⟩
  | cons m t =>
    rw [hms] at hloc
    obtain ⟨x, _, rfl⟩ := List.mem_map.mp hloc
    refine ⟨⟨rfl, rfl, rfl, rfl, rfl, rfl⟩, rfl, ?_, ?_, ?_⟩ <;>
      (intro hS
       obtain ⟨v, hv⟩ := Option.isSome_iff_exists.mp hS
       rw [hv]
       rfl)

theorem mem_applyFallback_src {harm : List HarmRow} {s : List StateRow}
    {r' : StateRow} (h : r' ∈ applyFallback harm s) :
    ∃ r ∈ s, PresKey r r' ∧ r'.cause_description = r.cause_description
      ∧ (r.harmonized_category.isSome = true →
          r'.harmonized_category = r.harmonized_category)
      ∧ (r.harmonized_category_name.isSome = true →
          r'.harmonized_category_name = r.harmonized_category_name)
      ∧ (r.classification_confidence.isSome = true →
          r'.classification_confidence = r.classification_confidence) := by
  unfold applyFallback at h
  by_cases hc : (s.any fun r => r.harmonized_category.isNone) = true
  · rw [if_pos hc] at h
    obtain ⟨r, hr, hloc⟩ := List.mem_flatMap.mp h
    refine ⟨r, hr, ?_⟩
    cases hms : (dedupByKey (fun h : HarmRow => h.code) harm).filter
        (fun h => h.code == r.cause) with
    | nil =>
      rw [hms] at hloc
      rw [List.mem_singleton.mp hloc]
      exact ⟨PresKey.refl r, rfl, fun _ => rfl, fun _ => rfl, fun _ => rfl⟩
    | cons m t =>
      rw [hms] at hloc
      obtain ⟨x, _, rfl⟩ := List.mem_map.mp hloc
      refine ⟨⟨rfl, rfl, rfl, rfl, rfl, rfl⟩, rfl, ?_, ?_, ?_⟩ <;>
        (intro hS
         obtain ⟨v, hv⟩ := Option.isSome_iff_exists.mp hS
         rw [hv]
         rfl)
  · rw [if_neg hc] at h
    exact ⟨r', h, PresKey.refl r', rfl, fun _ => rfl, fun _ => rfl, fun _ => rfl⟩

theorem applyOverrides_found {ol : List HarmRow} (hol : ol ≠ [])
    {s : List StateRow} {r' : StateRow}
    (h : r' ∈ applyOverrides (some ol) s) {o : HarmRow}
    (ho : o ∈ ol.map normalizeOvr)
    (hu : ((ol.map normalizeOvr).filter
        (fun x => x.code == o.code && x.icd_version == o.icd_version)).length ≤ 1)
    (hkc : r'.cause = o.code) (hkv : r'.icd_version = o.icd_version)
    (hS1 : o.harmonized_category.isSome = true)
    (hS2 : o.harmonized_category_name.isSome = true)
    (hS3 : o.classification_confidence.isSome = true) :
    r'.harmonized_category = o.harmonized_category
    ∧ r'.harmonized_category_name = o.harmonized_category_name
    ∧ r'.classification_confidence = o.classification_confidence := by
  unfold applyOverrides at h
  dsimp only at h
  rw [if_neg hol] at h
  obtain ⟨r, hr, hloc⟩ := List.mem_flatMap.mp h
  cases hms : (ol.map normalizeOvr).filter
      (fun x => x.code == r.cause && x.icd_version == r.icd_version) with
  | nil =>
    rw [hms] at hloc
    have hrr : r' = r := List.mem_singleton.mp hloc
    have hrc : r.cause = o.code := by rw [← hrr]; exact hkc
    have hrv : r.icd_version = o.icd_version := by rw [← hrr]; exact hkv
    rw [hrc, hrv] at hms
    have : o ∈ ((ol.map normalizeOvr).filter
        (fun x => x.code == o.code && x.icd_version == o.icd_version)) :=
      List.mem_filter.mpr ⟨ho, by simp⟩
    rw [hms] at this
    exact absurd this (List.not_mem_nil o)
  | cons m t =>
    rw [hms] at hloc
    obtain ⟨x, hx, rfl⟩ := List.mem_map.mp hloc
    have hrc : r.cause = o.code := hkc
    have hrv : r.icd_version = o.icd_version := hkv
    rw [hrc, hrv] at hms
    have hxmem : x ∈ ((ol.map normalizeOvr).filter
        (fun x => x.code == o.code && x.icd_version == o.icd_version)) := by
      rw [hms]; exact hx
    have homem : o ∈ ((ol.map normalizeOvr).filter
        (fun x => x.code == o.code && x.icd_version == o.icd_version)) :=
      List.mem_filter.mpr ⟨ho, by simp⟩
    have hxo : x = o := eq_of_mem_of_len_le_one hu hxmem homem
    subst hxo
    obtain ⟨v1, hv1⟩ := Option.isSome_iff_exists.mp hS1
    obtain ⟨v2, hv2⟩ := Option.isSome_iff_exists.mp hS2
    obtain ⟨v3, hv3⟩ := Option.isSome_iff_exists.mp hS3
    refine ⟨?_, ?_, ?_⟩ <;> simp [hv1, hv2, hv3, Option.or]

/-! Forward existence: every step keeps (a successor of) every row, never
touching the identifying columns or `cause_description`. -/

theorem exists_out_applyOverrides (ovr : Option (List HarmRow))
    (s : List StateRow) :
    ∀ r ∈ s, ∃ r' ∈ applyOverrides ovr s,
      PresKey r r' ∧ r'.cause_description = r.cause_description := by
  intro r hr
  cases ovr with
  | none => exact ⟨r, hr, PresKey.refl r, rfl⟩
  | some ol =>
    unfold applyOverrides
    dsimp only
    by_cases hol : ol = []
    · rw [if_pos hol]
      exact ⟨r, hr, PresKey.refl r, rfl⟩
    · rw [if_neg hol]
      cases hms : (ol.map normalizeOvr).filter
          (fun o => o.code == r.cause && o.icd_version == r.icd_version) with
      | nil =>
        refine ⟨r, List.mem_flatMap.mpr ⟨r, hr, ?_⟩, PresKey.refl r, rfl⟩
        rw [hms]
        exact List.mem_singleton.mpr rfl
      | cons m t =>
        refine ⟨{ r with
            harmonized_category := m.harmonized_category.or r.harmonized_category,
            harmonized_category_name :=
              m.harmonized_category_name.or r.harmonized_category_name,
            classification_confidence :=
              m.classification_confidence.or r.classification_confidence },
          List.mem_flatMap.mpr ⟨r, hr, ?_⟩,
          ⟨rfl, rfl, rfl, rfl, rfl, rfl⟩, rfl⟩
        rw [hms]
        exact List.mem_map.mpr ⟨m, List.mem_cons_self m t, rfl⟩

theorem exists_out_applyDefaults (harm : List HarmRow) (s : List StateRow) :
    ∀ r ∈ s, ∃ r' ∈ applyDefaults harm s,
      PresKey r r' ∧ r'.cause_description = r.cause_description := by
  intro r hr
  cases hms : harm.filter
      (fun h => h.code == r.cause && h.icd_version == r.icd_version) with
  | nil =>
    refine ⟨r, List.mem_flatMap.mpr ⟨r, hr, ?_⟩, PresKey.refl r, rfl⟩
    rw [hms]
    exact List.mem_singleton.mpr rfl
  | cons m t =>
    refine ⟨{ r with
        harmonized_category := r.harmonized_category.or m.harmonized_category,
        harmonized_category_name :=
          r.harmonized_category_name.or m.harmonized_category_name,
        classification_confidence :=
          r.classification_confidence.or m.classification_confidence },
      List.mem_flatMap.mpr ⟨r, hr, ?_⟩,
      ⟨rfl, rfl, rfl, rfl, rfl, rfl⟩, rfl⟩
    rw [hms]
    exact List.mem_map.mpr ⟨m, List.mem_cons_self m t, rfl⟩

theorem exists_out_applyFallback (harm : List HarmRow) (s : List StateRow) :
    ∀ r ∈ s, ∃ r' ∈ applyFallback harm s,
      PresKey r r' ∧ r'.cause_description = r.cause_description := by
  intro r hr
  unfold applyFallback
  by_cases hc : (s.any fun r => r.harmonized_category.isNone) = true
  · rw [if_pos hc]
    cases hms : (dedupByKey (fun h : HarmRow => h.code) harm).filter
        (fun h => h.code == r.cause) with
    | nil =>
      refine ⟨r, List.mem_flatMap.mpr ⟨r, hr, ?_⟩, PresKey.refl r, rfl⟩
      rw [hms]
      exact List.mem_singleton.mpr rfl
    | cons m t =>
      refine ⟨{ r with
          harmonized_category := r.harmonized_category.or m.harmonized_category,
          harmonized_category_name :=
            r.harmonized_category_name.or m.harmonized_category_name,
          classification_confidence :=
            r.classification_confidence.or m.classification_confidence },
        List.mem_flatMap.mpr ⟨r, hr, ?_⟩,
        ⟨rfl, rfl, rfl, rfl, rfl, rfl⟩, rfl⟩
      rw [hms]
      exact List.mem_map.mpr ⟨m, List.mem_cons_self m t, rfl⟩
  · rw [if_neg hc]
    exact ⟨r, hr, PresKey.refl r, rfl⟩

/-- C2 (counterexample): a (code, era) pair present in the override table
does win, but the emitted confidence label is the override row's own
`classification_confidence` value ("manual" here), never a forced
"override" label — the claim's "wins with confidence label \"override\""
is false for this run. -/
theorem C2_counterexample :
    (rebuild_harmonized_main [⟨1905, "7", "M", "0", 10⟩] []
        [⟨"7.0", "ICD-1 (1901-1910)", some "neoplasms", some "N", some "high"⟩]
        (some [⟨"7", "ICD-1 (1901-1910)", some "X", some "XN", some "manual"⟩])).1 =
      [⟨1905, "7.0", none, some "X", some "XN", some "manual", "M", "0", 10⟩]
    ∧ ∀ r ∈ (rebuild_harmonized_main [⟨1905, "7", "M", "0", 10⟩] []
        [⟨"7.0", "ICD-1 (1901-1910)", some "neoplasms", some "N", some "high"⟩]
        (some [⟨"7", "ICD-1 (1901-1910)", some "X", some "XN", some "manual"⟩])).1,
        r.classification_confidence ≠ some "override" := by decide

/-- C3 (counterexample): a record whose normalized cause code ("7.0",
era ICD-1) is absent from the description table for its era is retained
with `cause_description = none`, but its `harmonized_category` is NOT
null — the code-only fallback fills it from the harmonization row of a
different era — refuting the claim's "harmonized_category null". -/
theorem C3_counterexample :
    (([⟨"7.0", "ICD-2 (1911-1920)", some "x"⟩] : List CodeDescRow).filter
        (fun d => d.code == "7.0" && d.icd_version == "ICD-1 (1901-1910)")) = []
    ∧ (rebuild_harmonized_main [⟨1905, "7", "M", "0", 10⟩]
        [⟨"7.0", "ICD-2 (1911-1920)", some "x"⟩]
        [⟨"7.0", "ICD-2 (1911-1920)", some "infectious", some "Inf", some "medium"⟩]
        none).1 =
      [⟨1905, "7.0", none, some "infectious", some "Inf", some "medium", "M", "0", 10⟩]
    ∧ (⟨1905, "7.0", none, some "infectious", some "Inf", some "medium",
        "M", "0", 10⟩ : OutRow).cause_description = none
    ∧ (⟨1905, "7.0", none, some "infectious", some "Inf", some "medium",
        "M", "0", 10⟩ : OutRow).harmonized_category ≠ none := by decide

/-- Python/pandas string comparison, lexicographic by code point (the
order underlying `sort_values` on an object column). -/
def listStrLt : List Char → List Char → Bool
  | [], [] => false
  | [], _ :: _ => true
  | _ :: _, [] => false
  | a :: as, b :: bs =>
    if a.toNat < b.toNat then true
    else if b.toNat < a.toNat then false
    else listStrLt as bs

/-- Python `a < b` on strings. -/
def pyStrLt (a b : String) : Bool :=
  listStrLt a.toList b.toList

/-- C4 (counterexample): the driver never re-sorts; with an input fact
table sorted by (year, cause, sex, age) over the original cause strings
("1000" < "999"), era-6 zero-padding rewrites the causes to "1000" and
"0999", so the emitted rows are NOT ordered by year then cause — the
second row's cause sorts strictly before the first's. -/
theorem C4_counterexample :
    pyStrLt "1000" "999" = true
    ∧ (rebuild_harmonized_main
        [⟨1950, "1000", "M", "0", 1⟩, ⟨1950, "999", "M", "0", 1⟩] [] [] none).1 =
      [⟨1950, "1000", none, none, none, none, "M", "0", 1⟩,
       ⟨1950, "0999", none, none, none, none, "M", "0", 1⟩]
    ∧ (⟨1950, "1000", none, none, none, none, "M", "0", 1⟩ : OutRow).year =
        (⟨1950, "0999", none, none, none, none, "M", "0", 1⟩ : OutRow).year
    ∧ pyStrLt (⟨1950, "0999", none, none, none, none, "M", "0", 1⟩ : OutRow).cause
        (⟨1950, "1000", none, none, none, none, "M", "0", 1⟩ : OutRow).cause = true := by
  decide

/-- C2 (amended): for a normalized override row whose (code, era) key is
unique in the override table and whose three value fields are non-null,
every row of the driver's final state carrying that (code, era) key gets
exactly the override row's category, name and confidence — the override
beats both the default mapping and the fallback, and the emitted
confidence is the override row's own value. -/
theorem C2_override_precedence (facts : List FactRow)
    (desc : List CodeDescRow) (harm : List HarmRow) (ol : List HarmRow)
    (o : HarmRow) (hol : ol ≠ []) (ho : o ∈ ol.map normalizeOvr)
    (hu : ((ol.map normalizeOvr).filter
        (fun x => x.code == o.code && x.icd_version == o.icd_version)).length ≤ 1)
    (hS1 : o.harmonized_category.isSome = true)
    (hS2 : o.harmonized_category_name.isSome = true)
    (hS3 : o.classification_confidence.isSome = true) :
    ∀ r ∈ rebuild_harmonized_state facts desc harm (some ol),
      r.cause = o.code → r.icd_version = o.icd_version →
        r.harmonized_category = o.harmonized_category
        ∧ r.harmonized_category_name = o.harmonized_category_name
        ∧ r.classification_confidence = o.classification_confidence := by
  intro r hr hkc hkv
  obtain ⟨r3, hr3, pres3, _, f3hc, f3hn, f3cf⟩ := mem_applyFallback_src hr
  obtain ⟨r2, hr2, pres2, _, f2hc, f2hn, f2cf⟩ := mem_applyDefaults_src hr3
  have hk3c : r3.cause = o.code := by rw [← pres3.2.1]; exact hkc
  have hk3v : r3.icd_version = o.icd_version := by rw [← pres3.2.2.1]; exact hkv
  have hk2c : r2.cause = o.code := by rw [← pres2.2.1]; exact hk3c
  have hk2v : r2.icd_version = o.icd_version := by rw [← pres2.2.2.1]; exact hk3v
  obtain ⟨h2c, h2n, h2f⟩ :=
    applyOverrides_found hol hr2 ho hu hk2c hk2v hS1 hS2 hS3
  have h3c : r3.harmonized_category = o.harmonized_category := by
    rw [f2hc (h2c ▸ hS1), h2c]
  have h3n : r3.harmonized_category_name = o.harmonized_category_name := by
    rw [f2hn (h2n ▸ hS2), h2n]
  have h3f : r3.classification_confidence = o.classification_confidence := by
    rw [f2cf (h2f ▸ hS3), h2f]
  exact ⟨by rw [f3hc (h3c ▸ hS1), h3c],
    by rw [f3hn (h3n ▸ hS2), h3n],
    by rw [f3cf (h3f ▸ hS3), h3f]⟩

/-- C2 (witness): the precedence theorem instantiated on a concrete run
in which the default table would classify code 7.0 of 1905 as
"neoplasms" but the override dictates ("X", "XN", "manual"): the single
state row carries exactly the override entry. -/
theorem C2_override_precedence_witness :
    (⟨1905, "7.0", "ICD-1 (1901-1910)", "M", "0", 10, none, some "X",
        some "XN", some "manual"⟩ : StateRow) ∈
      rebuild_harmonized_state [⟨1905, "7", "M", "0", 10⟩] []
        [⟨"7.0", "ICD-1 (1901-1910)", some "neoplasms", some "N", some "high"⟩]
        (some [⟨"7", "ICD-1 (1901-1910)", some "X", some "XN", some "manual"⟩])
    ∧ (⟨1905, "7.0", "ICD-1 (1901-1910)", "M", "0", 10, none, some "X",
        some "XN", some "manual"⟩ : StateRow).harmonized_category = some "X"
    ∧ (⟨1905, "7.0", "ICD-1 (1901-1910)", "M", "0", 10, none, some "X",
        some "XN", some "manual"⟩ : StateRow).harmonized_category_name = some "XN"
    ∧ (⟨1905, "7.0", "ICD-1 (1901-1910)", "M", "0", 10, none, some "X",
        some "XN", some "manual"⟩ : StateRow).classification_confidence =
        some "manual" :=
  ⟨by decide,
    C2_override_precedence [⟨1905, "7", "M", "0", 10⟩] []
      [⟨"7.0", "ICD-1 (1901-1910)", some "neoplasms", some "N", some "high"⟩]
      [⟨"7", "ICD-1 (1901-1910)", some "X", some "XN", some "manual"⟩]
      ⟨"7.0", "ICD-1 (1901-1910)", some "X", some "XN", some "manual"⟩
      (by decide) (by decide) (by decide) (by decide) (by decide) (by decide)
      ⟨1905, "7.0", "ICD-1 (1901-1910)", "M", "0", 10, none, some "X",
        some "XN", some "manual"⟩
      (by decide) (by decide) (by decide)⟩

/-- C3 (amended): a record whose normalized (code, era) key is absent
from the description table is retained in the output — one row with the
record's year, sex, age and deaths, the normalized cause, and a null
cause_description — and it is counted on the unmatched side of the
matched/total description match-rate, making matched strictly less than
total. -/
theorem C3_unmatched_retained (facts : List FactRow)
    (desc : List CodeDescRow) (harm : List HarmRow)
    (ovr : Option (List HarmRow)) (f : FactRow) (hf : f ∈ facts)
    (hun : desc.filter (fun d => d.code == (initRow f).cause
        && d.icd_version == (initRow f).icd_version) = []) :
    (∃ r ∈ (rebuild_harmonized_main facts desc harm ovr).1,
        r.year = f.year ∧ r.sex = f.sex ∧ r.age = f.age
        ∧ r.deaths = f.deaths
        ∧ r.cause = normalize_code f.cause (eraOf f.year)
        ∧ r.cause_description = none)
    ∧ (rebuild_harmonized_main facts desc harm ovr).2.1 <
        (rebuild_harmonized_main facts desc harm ovr).2.2 := by
  have h0 : initRow f ∈ facts.map initRow := List.mem_map.mpr ⟨f, hf, rfl⟩
  have h1 : ({ initRow f with cause_description := none } : StateRow) ∈
      leftMergeDesc desc (facts.map initRow) := by
    apply List.mem_flatMap.mpr ⟨initRow f, h0, ?_⟩
    rw [hun]
    exact List.mem_singleton.mpr rfl
  constructor
  · obtain ⟨r2, hr2, pres2, cd2⟩ :=
      exists_out_applyOverrides ovr _ _ h1
    obtain ⟨r3, hr3, pres3, cd3⟩ :=
      exists_out_applyDefaults harm _ _ hr2
    obtain ⟨r4, hr4, pres4, cd4⟩ :=
      exists_out_applyFallback harm _ _ hr3
    refine ⟨⟨r4.year, r4.cause, r4.cause_description, r4.harmonized_category,
      r4.harmonized_category_name, r4.classification_confidence, r4.sex,
      r4.age, r4.deaths⟩, List.mem_map.mpr ⟨r4, hr4, rfl⟩, ?_⟩
    have pres := (pres2.trans pres3).trans pres4
    refine ⟨pres.1, pres.2.2.2.1, pres.2.2.2.2.1, pres.2.2.2.2.2,
      pres.2.1, ?_⟩
    rw [cd4, cd3, cd2]
  · exact countP_lt_length h1 (by rfl)

/-- C3 (witness): the retention theorem instantiated on the concrete run
of `C3_counterexample` (code 7.0 of 1905, absent from the ICD-1 slice of
the description table). -/
theorem C3_unmatched_retained_witness :
    (∃ r ∈ (rebuild_harmonized_main [⟨1905, "7", "M", "0", 10⟩]
        [⟨"7.0", "ICD-2 (1911-1920)", some "x"⟩]
        [⟨"7.0", "ICD-2 (1911-1920)", some "infectious", some "Inf", some "medium"⟩]
        none).1,
        r.year = (1905 : Int) ∧ r.sex = "M" ∧ r.age = "0"
        ∧ r.deaths = (10 : Int)
        ∧ r.cause = normalize_code "7" (eraOf 1905)
        ∧ r.cause_description = none)
    ∧ (rebuild_harmonized_main [⟨1905, "7", "M", "0", 10⟩]
        [⟨"7.0", "ICD-2 (1911-1920)", some "x"⟩]
        [⟨"7.0", "ICD-2 (1911-1920)", some "infectious", some "Inf", some "medium"⟩]
        none).2.1 <
      (rebuild_harmonized_main [⟨1905, "7", "M", "0", 10⟩]
        [⟨"7.0", "ICD-2 (1911-1920)", some "x"⟩]
        [⟨"7.0", "ICD-2 (1911-1920)", some "infectious", some "Inf", some "medium"⟩]
        none).2.2 :=
  C3_unmatched_retained [⟨1905, "7", "M", "0", 10⟩]
    [⟨"7.0", "ICD-2 (1911-1920)", some "x"⟩]
    [⟨"7.0", "ICD-2 (1911-1920)", some "infectious", some "Inf", some "medium"⟩]
    none ⟨1905, "7", "M", "0", 10⟩ (by decide) (by decide)

/-- C4 (amended): the driver's output has exactly the columns
year, cause, cause_description, harmonized_category,
harmonized_category_name, classification_confidence, sex, age, deaths in
that order, and — whenever the description, harmonization and override
tables are unique per key — exactly one row per input fact row, in the
input fact table's order (the upstream aggregation sorts by year and the
ORIGINAL cause strings; the driver never re-sorts, so the output need
not be ordered by the rewritten cause column, cf. `C4_counterexample`);
each output row carries its fact row's year, sex, age and deaths and the
era-normalized cause. -/
theorem C4_output_shape (facts : List FactRow) (desc : List CodeDescRow)
    (harm : List HarmRow) (ovr : Option (List HarmRow))
    (hdesc : ∀ c v, (desc.filter
        (fun d => d.code == c && d.icd_version == v)).length ≤ 1)
    (hharm : ∀ c v, (harm.filter
        (fun h => h.code == c && h.icd_version == v)).length ≤ 1)
    (hovr : ∀ ol, ovr = some ol → ∀ c v, ((ol.map normalizeOvr).filter
        (fun x => x.code == c && x.icd_version == v)).length ≤ 1) :
    final_cols = ["year", "cause", "cause_description",
      "harmonized_category", "harmonized_category_name",
      "classification_confidence", "sex", "age", "deaths"]
    ∧ List.Forall₂ (fun (f : FactRow) (r : OutRow) =>
        r.year = f.year ∧ r.sex = f.sex ∧ r.age = f.age
        ∧ r.deaths = f.deaths
        ∧ r.cause = normalize_code f.cause (eraOf f.year))
      facts (rebuild_harmonized_main facts desc harm ovr).1 := by
  refine ⟨rfl, ?_⟩
  have h01 := leftMergeDesc_forall2 desc hdesc (facts.map initRow)
  have h12 := applyOverrides_forall2 ovr hovr
    (leftMergeDesc desc (facts.map initRow))
  have h23 := applyDefaults_forall2 harm hharm
    (applyOverrides ovr (leftMergeDesc desc (facts.map initRow)))
  have h34 := applyFallback_forall2 harm
    (applyDefaults harm (applyOverrides ovr
      (leftMergeDesc desc (facts.map initRow))))
  have hs := forall2_presKey_trans
    (forall2_presKey_trans (forall2_presKey_trans h01 h12) h23) h34
  rw [List.forall₂_map_left_iff] at hs
  show List.Forall₂ _ facts
    (projectFinal (rebuild_harmonized_state facts desc harm ovr))
  unfold projectFinal
  rw [List.forall₂_map_right_iff]
  exact hs.imp (fun f r4 h =>
    ⟨h.1, h.2.2.2.1, h.2.2.2.2.1, h.2.2.2.2.2, h.2.1⟩)

/-- C4 (witness): the shape theorem instantiated on the concrete run of
`C4_counterexample` (empty lookup tables are trivially key-unique). -/
theorem C4_output_shape_witness :
    final_cols = ["year", "cause", "cause_description",
      "harmonized_category", "harmonized_category_name",
      "classification_confidence", "sex", "age", "deaths"]
    ∧ List.Forall₂ (fun (f : FactRow) (r : OutRow) =>
        r.year = f.year ∧ r.sex = f.sex ∧ r.age = f.age
        ∧ r.deaths = f.deaths
        ∧ r.cause = normalize_code f.cause (eraOf f.year))
      [⟨1950, "1000", "M", "0", 1⟩, ⟨1950, "999", "M", "0", 1⟩]
      (rebuild_harmonized_main
        [⟨1950, "1000", "M", "0", 1⟩, ⟨1950, "999", "M", "0", 1⟩]
        [] [] none).1 :=
  C4_output_shape [⟨1950, "1000", "M", "0", 1⟩, ⟨1950, "999", "M", "0", 1⟩]
    [] [] none (fun c v => by simp) (fun c v => by simp)
    (fun ol h => nomatch h)

end UKMort
